import Mathlib

/-!
# HTLC message validation of irishub

A shallow embedding of `app/v2/htlc/internal/types/msgs.go`, of the HTLC commands of
`client/htlc/cli/sendtx.go`, of the block-handler ordering and the module-account
tables of `app/app.go`, and of the token statistic handler of `client/bank/lcd/query.go`,
followed by theorems about them.

Conventions of the embedding:
* a Go `string` or `[]byte` is the list of its bytes, each byte a natural number below 256;
* a `uint64` is a natural number, an `int64` an integer; the conversion `uint64(x)` of an
  `int64` is reduction modulo `2^64`;
* an `sdk.Error` is represented by its kind (the constructor that built it); the codespace is
  always `DefaultCodespace` and the message text is not modelled; `nil` is `none`;
* a Go `map` is the list of its entries; a `range` loop over a map visits the entries in an
  order Go leaves unspecified, which the functions with such a loop take as a parameter.
-/

namespace Irishub

/-! ## Go's `encoding/hex` -/

/-- A Go `string` (or `[]byte`): the list of its bytes. -/
abbrev GoString := List Nat

/-- The errors of `encoding/hex`: `InvalidByteError(b)` and `ErrLength`. -/
inductive HexError where
  | InvalidByteError (b : Nat)
  | ErrLength
  deriving DecidableEq, Repr

/-- `fromHexChar` of `encoding/hex`: the value of a hex digit byte, `none` when the byte is
not one of `0-9`, `a-f`, `A-F`. -/
def fromHexChar (c : Nat) : Option Nat :=
  if 48 ≤ c ∧ c ≤ 57 then some (c - 48)
  else if 97 ≤ c ∧ c ≤ 102 then some (c - 97 + 10)
  else if 65 ≤ c ∧ c ≤ 70 then some (c - 65 + 10)
  else none

/-- `hex.Decode`: the loop consumes the source two bytes at a time, failing with
`InvalidByteError` at the first byte that is not a hex digit; a trailing single byte fails
with `InvalidByteError` when it is not a hex digit and with `ErrLength` otherwise. The bytes
decoded before a failure are not kept, no caller reads them. -/
def hexDecode : GoString → Except HexError (List Nat)
  | [] => .ok []
  | [p] =>
    match fromHexChar p with
    | none => .error (.InvalidByteError p)
    | some _ => .error .ErrLength
  | p :: q :: rest =>
    match fromHexChar p with
    | none => .error (.InvalidByteError p)
    | some a =>
      match fromHexChar q with
      | none => .error (.InvalidByteError q)
      | some b =>
        match hexDecode rest with
        | .error e => .error e
        | .ok bs => .ok (((a <<< 4) ||| b) :: bs)

/-- `hex.DecodeString`. -/
def DecodeString (s : GoString) : Except HexError (List Nat) := hexDecode s

/-! ## `msgs.go` -/

/-- `SecretLength`: the length for secret. -/
def SecretLength : Nat := 32
/-- `MaxLengthForAddressOnOtherChain`: maximal length in bytes for the address on other chains. -/
def MaxLengthForAddressOnOtherChain : Nat := 32
/-- `MinTimeLock`: minimal time span for HTLC. -/
def MinTimeLock : Nat := 50
/-- `MaxTimeLock`: maximal time span for HTLC. -/
def MaxTimeLock : Nat := 25480

/-- Modelled from the spec: the error constructors of the module's `errors.go`, which is not
among the sources. One kind per constructor that `msgs.go` calls (`ErrInvalidAddress`,
`ErrInvalidAmount`, `ErrInvalidSecretHashLock` — the spec's `InvalidHashLock` —,
`ErrInvalidSecret`), and the spec's `InvalidTimeLock`. -/
inductive SdkError where
  | ErrInvalidAddress
  | ErrInvalidAmount
  | ErrInvalidSecretHashLock
  | ErrInvalidSecret
  | ErrInvalidTimeLock
  deriving DecidableEq, Repr

/-- `sdk.AccAddress`, a byte slice. -/
abbrev AccAddress := List Nat

/-- Modelled from the spec: `sdk.Coin` of `irishub/types`, which is not among the sources: an
amount with a denomination. -/
structure Coin where
  Denom : GoString
  Amount : Int
  deriving DecidableEq, Repr

/-- Modelled from the spec: `Coin.IsPositive` of `irishub/types` (not among the sources):
the amount is strictly positive. -/
def Coin.IsPositive (coin : Coin) : Bool := decide (0 < coin.Amount)

/-- `MsgCreateHTLC` represents a msg for creating a HTLC. -/
structure MsgCreateHTLC where
  Sender : AccAddress
  Receiver : AccAddress
  ReceiverOnOtherChain : List Nat
  OutAmount : Coin
  InAmount : Nat
  SecretHashLock : GoString
  Timestamp : Nat
  TimeLock : Nat
  deriving DecidableEq, Repr

/-- `NewMsgCreateHTLC` constructs a MsgCreateHTLC. -/
def NewMsgCreateHTLC (sender receiver : AccAddress) (receiverOnOtherChain : List Nat)
    (outAmount : Coin) (inAmount : Nat) (secretHashLock : GoString)
    (timestamp timeLock : Nat) : MsgCreateHTLC :=
  { Sender := sender
    Receiver := receiver
    ReceiverOnOtherChain := receiverOnOtherChain
    OutAmount := outAmount
    InAmount := inAmount
    SecretHashLock := secretHashLock
    Timestamp := timestamp
    TimeLock := timeLock }

/-- `ValidateSecretHashLock` validates the secret hash lock. -/
def ValidateSecretHashLock (secretHashLock : GoString) : Option SdkError :=
  match DecodeString secretHashLock with
  | .error _ => some .ErrInvalidSecretHashLock
  | .ok secretHash =>
    if secretHash.length ≠ 32 then some .ErrInvalidSecretHashLock
    else none

/-- `ValidateSecret` validates the secret. -/
def ValidateSecret (secret : GoString) : Option SdkError :=
  match DecodeString secret with
  | .error _ => some .ErrInvalidSecret
  | .ok secretHex =>
    if secretHex.length ≠ 32 then some .ErrInvalidSecret
    else none

/-- `MsgCreateHTLC.ValidateBasic`. -/
def MsgCreateHTLC.ValidateBasic (msg : MsgCreateHTLC) : Option SdkError :=
  if msg.Sender.length = 0 then some .ErrInvalidAddress
  else if msg.Receiver.length = 0 then some .ErrInvalidAddress
  else if msg.ReceiverOnOtherChain.length > MaxLengthForAddressOnOtherChain then
    some .ErrInvalidAddress
  else if !msg.OutAmount.IsPositive then some .ErrInvalidAmount
  else
    match ValidateSecretHashLock msg.SecretHashLock with
    | some _ => some .ErrInvalidSecretHashLock
    | none =>
      if msg.TimeLock < MinTimeLock ∨ msg.TimeLock > MaxTimeLock then
        some .ErrInvalidSecretHashLock
      else none

/-- `MsgClaimHTLC` represents a msg for claim a HTLC. -/
structure MsgClaimHTLC where
  Sender : AccAddress
  Secret : GoString
  SecretHashLock : GoString
  deriving DecidableEq, Repr

/-- `NewMsgClaimHTLC` constructs a MsgClaimHTLC. -/
def NewMsgClaimHTLC (sender : AccAddress) (secret : GoString) (secretHashLock : GoString) :
    MsgClaimHTLC :=
  { Sender := sender
    Secret := secret
    SecretHashLock := secretHashLock }

/-- `MsgClaimHTLC.ValidateBasic`. -/
def MsgClaimHTLC.ValidateBasic (msg : MsgClaimHTLC) : Option SdkError :=
  if msg.Sender.length = 0 then some .ErrInvalidAddress
  else
    match ValidateSecret msg.Secret with
    | some _ => some .ErrInvalidSecret
    | none =>
      match ValidateSecretHashLock msg.SecretHashLock with
      | some _ => some .ErrInvalidSecretHashLock
      | none => none

/-- `MsgRefundHTLC` represents a msg for refund a HTLC. -/
structure MsgRefundHTLC where
  Sender : AccAddress
  SecretHashLock : GoString
  deriving DecidableEq, Repr

/-- `NewMsgRefundHTLC` constructs a MsgRefundHTLC. -/
def NewMsgRefundHTLC (sender : AccAddress) (secretHashLock : GoString) : MsgRefundHTLC :=
  { Sender := sender
    SecretHashLock := secretHashLock }

/-- `MsgRefundHTLC.ValidateBasic`. -/
def MsgRefundHTLC.ValidateBasic (msg : MsgRefundHTLC) : Option SdkError :=
  if msg.Sender.length = 0 then some .ErrInvalidAddress
  else
    match ValidateSecretHashLock msg.SecretHashLock with
    | some _ => some .ErrInvalidSecretHashLock
    | none => none

/-- A string is a well-formed 32-byte hex value when `hex.DecodeString` succeeds on it and
the decoded slice has exactly 32 bytes. -/
def DecodesTo32 (s : GoString) : Prop :=
  ∃ bs, DecodeString s = .ok bs ∧ bs.length = 32

instance (s : GoString) : Decidable (DecodesTo32 s) :=
  match h : DecodeString s with
  | .ok bs =>
    if hl : bs.length = 32 then isTrue ⟨bs, h, hl⟩
    else isFalse (by rintro ⟨bs2, h2, hl2⟩; rw [h] at h2; cases h2; exact hl hl2)
  | .error e => isFalse (by rintro ⟨bs2, h2, _⟩; rw [h] at h2; cases h2)

/-- Sixty-four times the byte `c`. -/
def hex64 (c : Nat) : GoString := List.replicate 64 c

/-- The interface `sdk.Msg`, restricted to the three HTLC messages. -/
inductive Msg where
  | create (m : MsgCreateHTLC)
  | claim (m : MsgClaimHTLC)
  | refund (m : MsgRefundHTLC)
  deriving DecidableEq, Repr

/-- The method `ValidateBasic` of the interface `sdk.Msg`. -/
def Msg.ValidateBasic : Msg → Option SdkError
  | .create m => m.ValidateBasic
  | .claim m => m.ValidateBasic
  | .refund m => m.ValidateBasic

/-! ## `client/htlc/cli/sendtx.go` -/

/-- The errors a command returns: an error of a collaborator (address lookup, bech32
decoding, coin parsing, sending), an error of `hex.DecodeString`, or the error of
`ValidateBasic`. -/
inductive CliError where
  | collaborator (code : Nat)
  | hex (e : HexError)
  | validation (e : SdkError)
  deriving DecidableEq, Repr

/-- The collaborators of the commands, whose code is outside the repository's sources: each
is taken as a parameter. `SendOrPrintTx` is given by the error it returns. -/
structure CliEnv where
  GetFromAddress : Except CliError AccAddress
  AccAddressFromBech32 : GoString → Except CliError AccAddress
  ParseCoin : GoString → Except CliError Coin
  SendOrPrintTx : List Msg → Option CliError

/-- The values of the command-line flags as `viper` returns them: `GetString` for the
string flags, `GetInt64` for `--in-amount`, `--timestamp` and `--time-lock`. -/
structure Flags where
  receiver : GoString
  receiverOnOtherChain : GoString
  inAmount : Int
  amount : GoString
  hashLock : GoString
  timestamp : Int
  timeLock : Int
  secret : GoString

/-- What running a command does: the error it returns (`none` for `nil`) and the message
lists handed to `SendOrPrintTx`, in order. -/
structure CmdResult where
  err : Option CliError
  sent : List (List Msg)
  deriving DecidableEq, Repr

/-- The Go conversion `uint64(x)` of an `int64`. -/
def uint64 (x : Int) : Nat := (x % 2 ^ 64).toNat

/-- The `RunE` function of `GetCmdCreateHtlc`. -/
def GetCmdCreateHtlc.RunE (env : CliEnv) (flags : Flags) : CmdResult :=
  match env.GetFromAddress with
  | .error err => ⟨some err, []⟩
  | .ok sender =>
    match env.AccAddressFromBech32 flags.receiver with
    | .error err => ⟨some err, []⟩
    | .ok receiver =>
      match DecodeString flags.receiverOnOtherChain with
      | .error err => ⟨some (.hex err), []⟩
      | .ok receiverOnOtherChain =>
        let inAmount := flags.inAmount
        match env.ParseCoin flags.amount with
        | .error err => ⟨some err, []⟩
        | .ok coin =>
          let hashLock := flags.hashLock
          let timestamp := flags.timestamp
          let timeLock := flags.timeLock
          let msg := Msg.create (NewMsgCreateHTLC sender receiver receiverOnOtherChain coin
            (uint64 inAmount) hashLock (uint64 timestamp) (uint64 timeLock))
          match msg.ValidateBasic with
          | some err => ⟨some (.validation err), []⟩
          | none => ⟨env.SendOrPrintTx [msg], [[msg]]⟩

/-- The `RunE` function of `GetCmdClaimHtlc`. -/
def GetCmdClaimHtlc.RunE (env : CliEnv) (flags : Flags) : CmdResult :=
  match env.GetFromAddress with
  | .error err => ⟨some err, []⟩
  | .ok sender =>
    let hashLock := flags.hashLock
    let secret := flags.secret
    let msg := Msg.claim (NewMsgClaimHTLC sender hashLock secret)
    match msg.ValidateBasic with
    | some err => ⟨some (.validation err), []⟩
    | none => ⟨env.SendOrPrintTx [msg], [[msg]]⟩

/-- The `RunE` function of `GetCmdRefundHtlc`. -/
def GetCmdRefundHtlc.RunE (env : CliEnv) (flags : Flags) : CmdResult :=
  match env.GetFromAddress with
  | .error err => ⟨some err, []⟩
  | .ok sender =>
    let hashLock := flags.hashLock
    let msg := Msg.refund (NewMsgRefundHTLC sender hashLock)
    match msg.ValidateBasic with
    | some err => ⟨some (.validation err), []⟩
    | none => ⟨env.SendOrPrintTx [msg], [[msg]]⟩

/-! ## `app/app.go`: the order of the block handlers -/

/-- The module-name constants used in the two orderings. They are declared in the imported
packages (cosmos-sdk, irismod, the irishub modules), not in the sources of this repository;
each is given the name of its module. -/
def upgradetypes.ModuleName : String := "upgrade"
/-- The constant `minttypes.ModuleName`. -/
def minttypes.ModuleName : String := "mint"
/-- The constant `distrtypes.ModuleName`. -/
def distrtypes.ModuleName : String := "distribution"
/-- The constant `slashingtypes.ModuleName`. -/
def slashingtypes.ModuleName : String := "slashing"
/-- The constant `evidencetypes.ModuleName`. -/
def evidencetypes.ModuleName : String := "evidence"
/-- The constant `stakingtypes.ModuleName`. -/
def stakingtypes.ModuleName : String := "staking"
/-- The constant `ibchost.ModuleName`. -/
def ibchost.ModuleName : String := "ibc"
/-- The constant `htlctypes.ModuleName`. -/
def htlctypes.ModuleName : String := "htlc"
/-- The constant `randomtypes.ModuleName`. -/
def randomtypes.ModuleName : String := "random"
/-- The constant `crisistypes.ModuleName`. -/
def crisistypes.ModuleName : String := "crisis"
/-- The constant `govtypes.ModuleName`. -/
def govtypes.ModuleName : String := "gov"
/-- The constant `servicetypes.ModuleName`. -/
def servicetypes.ModuleName : String := "service"

/-- The module names passed to `SetOrderBeginBlockers` in `NewIrisApp`: the modules whose
begin-of-block handler runs, before the transactions of the block. -/
def OrderBeginBlockers : List String :=
  [upgradetypes.ModuleName, minttypes.ModuleName, distrtypes.ModuleName,
   slashingtypes.ModuleName, evidencetypes.ModuleName, stakingtypes.ModuleName,
   ibchost.ModuleName, htlctypes.ModuleName, randomtypes.ModuleName]

/-- The module names passed to `SetOrderEndBlockers` in `NewIrisApp`: the modules whose
end-of-block handler runs, after the transactions of the block. -/
def OrderEndBlockers : List String :=
  [crisistypes.ModuleName, govtypes.ModuleName, stakingtypes.ModuleName,
   servicetypes.ModuleName]

/-! ## Go maps -/

/-- A Go `map`: the list of its entries, whose keys are pairwise distinct. -/
abbrev GoMap (κ ν : Type) := List (κ × ν)

/-- The empty map of `make(map[K]V)`. -/
def GoMap.empty {κ ν : Type} : GoMap κ ν := []

/-- The lookup `v, ok := m[k]`: the value stored under `k`, `none` when `k` is not a key. -/
def GoMap.lookup {κ ν : Type} [DecidableEq κ] : GoMap κ ν → κ → Option ν
  | [], _ => none
  | (k, v) :: m, x => if x = k then some v else GoMap.lookup m x

/-- The assignment `m[k] = v`: replaces the value of an existing key, adds a new key. -/
def GoMap.store {κ ν : Type} [DecidableEq κ] : GoMap κ ν → κ → ν → GoMap κ ν
  | [], k, v => [(k, v)]
  | (k1, v1) :: m, k, v => if k = k1 then (k1, v) :: m else (k1, v1) :: GoMap.store m k v

/-- The keys of a map. -/
def GoMap.keys {κ ν : Type} (m : GoMap κ ν) : List κ := m.map Prod.fst

/-! ## `app/app.go`: the module accounts -/

/-- The constant `authtypes.FeeCollectorName`. Like the module names above, the constants of
this section are declared in imported packages. -/
def authtypes.FeeCollectorName : String := "fee_collector"
/-- The permission `authtypes.Minter`. -/
def authtypes.Minter : String := "minter"
/-- The permission `authtypes.Burner`. -/
def authtypes.Burner : String := "burner"
/-- The permission `authtypes.Staking`. -/
def authtypes.Staking : String := "staking"
/-- The constant `stakingtypes.BondedPoolName`. -/
def stakingtypes.BondedPoolName : String := "bonded_tokens_pool"
/-- The constant `stakingtypes.NotBondedPoolName`. -/
def stakingtypes.NotBondedPoolName : String := "not_bonded_tokens_pool"
/-- The constant `ibctransfertypes.ModuleName`. -/
def ibctransfertypes.ModuleName : String := "transfer"
/-- The constant `tokentypes.ModuleName`. -/
def tokentypes.ModuleName : String := "token"
/-- The constant `coinswaptypes.ModuleName`. -/
def coinswaptypes.ModuleName : String := "coinswap"
/-- The constant `servicetypes.DepositAccName`. -/
def servicetypes.DepositAccName : String := "service_deposit_account"
/-- The constant `servicetypes.RequestAccName`. -/
def servicetypes.RequestAccName : String := "service_request_account"

/-- The variable `maccPerms`: module account permissions. A `nil` permission slice is the
empty list. -/
def maccPerms : GoMap String (List String) :=
  [(authtypes.FeeCollectorName, []),
   (distrtypes.ModuleName, []),
   (minttypes.ModuleName, [authtypes.Minter]),
   (stakingtypes.BondedPoolName, [authtypes.Burner, authtypes.Staking]),
   (stakingtypes.NotBondedPoolName, [authtypes.Burner, authtypes.Staking]),
   (govtypes.ModuleName, [authtypes.Burner]),
   (ibctransfertypes.ModuleName, [authtypes.Minter, authtypes.Burner]),
   (tokentypes.ModuleName, [authtypes.Minter, authtypes.Burner]),
   (htlctypes.ModuleName, []),
   (coinswaptypes.ModuleName, [authtypes.Minter, authtypes.Burner]),
   (servicetypes.DepositAccName, [authtypes.Burner]),
   (servicetypes.RequestAccName, [])]

/-- The variable `allowedReceivingModAcc`: module accounts that are allowed to receive
tokens. -/
def allowedReceivingModAcc : GoMap String Bool :=
  [(distrtypes.ModuleName, true)]

/-- The index expression `allowedReceivingModAcc[acc]`: `false` when `acc` is not a key. -/
def allowedReceivingModAcc.index (acc : String) : Bool :=
  (GoMap.lookup allowedReceivingModAcc acc).getD false

/-- `IrisApp.ModuleAccountAddrs`. The function `authtypes.NewModuleAddress(acc).String()` of
cosmos-sdk is the parameter `NewModuleAddress`; `order` is the order in which the `range`
loop visits the entries of `maccPerms`, which Go leaves unspecified. -/
def ModuleAccountAddrs (NewModuleAddress : String → String)
    (order : List (String × List String)) : GoMap String Bool :=
  order.foldl (fun modAccAddrs e => GoMap.store modAccAddrs (NewModuleAddress e.1) true)
    GoMap.empty

/-- `IrisApp.BlockedAddrs`, with the same parameters as `ModuleAccountAddrs`. -/
def BlockedAddrs (NewModuleAddress : String → String)
    (order : List (String × List String)) : GoMap String Bool :=
  order.foldl
    (fun blockedAddrs e =>
      GoMap.store blockedAddrs (NewModuleAddress e.1) (!allowedReceivingModAcc.index e.1))
    GoMap.empty

/-- `GetMaccPerms`: the loop carries the copy under construction and the variable
`maccPerms`, here `global`; it returns the copy together with the final value of the
variable. `order` is the order in which the `range` loop visits the entries. -/
def GetMaccPerms (global : GoMap String (List String))
    (order : List (String × List String)) :
    GoMap String (List String) × GoMap String (List String) :=
  order.foldl (fun st e => (GoMap.store st.1 e.1 e.2, st.2)) (GoMap.empty, global)

/-! ## Notions used in the statements -/

/-- The checks of `MsgCreateHTLC.ValidateBasic`, named after the field they examine. -/
inductive CreateCheck where
  | Sender
  | Receiver
  | ReceiverOnOtherChain
  | OutAmount
  | SecretHashLock
  | TimeLock
  deriving DecidableEq, Repr

/-- The condition under which a check of `MsgCreateHTLC.ValidateBasic` is violated: the
condition of the corresponding `if` statement. -/
def CreateCheck.violated (msg : MsgCreateHTLC) : CreateCheck → Bool
  | .Sender => decide (msg.Sender.length = 0)
  | .Receiver => decide (msg.Receiver.length = 0)
  | .ReceiverOnOtherChain =>
    decide (msg.ReceiverOnOtherChain.length > MaxLengthForAddressOnOtherChain)
  | .OutAmount => !msg.OutAmount.IsPositive
  | .SecretHashLock => (ValidateSecretHashLock msg.SecretHashLock).isSome
  | .TimeLock => decide (msg.TimeLock < MinTimeLock ∨ msg.TimeLock > MaxTimeLock)

/-- The error a check of `MsgCreateHTLC.ValidateBasic` returns when it is violated: the
constructor called in the `return` statement of the corresponding `if`. -/
def CreateCheck.error : CreateCheck → SdkError
  | .Sender => .ErrInvalidAddress
  | .Receiver => .ErrInvalidAddress
  | .ReceiverOnOtherChain => .ErrInvalidAddress
  | .OutAmount => .ErrInvalidAmount
  | .SecretHashLock => .ErrInvalidSecretHashLock
  | .TimeLock => .ErrInvalidSecretHashLock

/-- The fixed order of the checks: Sender, Receiver, ReceiverOnOtherChain length, OutAmount,
SecretHashLock, TimeLock. -/
def CreateCheck.order : List CreateCheck :=
  [.Sender, .Receiver, .ReceiverOnOtherChain, .OutAmount, .SecretHashLock, .TimeLock]

/-- The first violated check of a create message in the fixed order, `none` when no check
is violated. This follows the wording of the specification, not the code. -/
def firstViolatedCheck (msg : MsgCreateHTLC) : Option CreateCheck :=
  CreateCheck.order.find? (CreateCheck.violated msg)

/-- A byte is a hexadecimal digit when it is one of `0-9`, `a-f`, `A-F`. -/
def isHexDigit (c : Nat) : Bool :=
  (decide (48 ≤ c) && decide (c ≤ 57)) || (decide (97 ≤ c) && decide (c ≤ 102)) ||
    (decide (65 ≤ c) && decide (c ≤ 70))

/-- The lower-cased form of a byte: the letters `A-Z` are mapped to `a-z`, every other byte
is unchanged. -/
def toLowerByte (c : Nat) : Nat := if 65 ≤ c ∧ c ≤ 90 then c + 32 else c

/-- The lower-cased form of a string of ASCII bytes, as `strings.ToLower` computes it. -/
def toLower (s : GoString) : GoString := s.map toLowerByte

/-- The lower-case hex digit of a value below 16, as in `hex.EncodeToString`. -/
def lowerHexDigit (n : Nat) : Nat := if n < 10 then 48 + n else 97 + (n - 10)

/-- The upper-case hex digit of a value below 16. -/
def upperHexDigit (n : Nat) : Nat := if n < 10 then 48 + n else 65 + (n - 10)

/-- The lower-case hex encoding of a byte slice, `hex.EncodeToString`. -/
def encodeLower : List Nat → GoString
  | [] => []
  | b :: bs => lowerHexDigit (b / 16) :: lowerHexDigit (b % 16) :: encodeLower bs

/-- The upper-case hex encoding of a byte slice. -/
def encodeUpper : List Nat → GoString
  | [] => []
  | b :: bs => upperHexDigit (b / 16) :: upperHexDigit (b % 16) :: encodeUpper bs

/-- A byte slice whose hex encoding contains a letter: one of its bytes has a half-byte of
value 10 or more. -/
def hasHexLetter (bs : List Nat) : Bool :=
  bs.any (fun b => decide (10 ≤ b / 16) || decide (10 ≤ b % 16))

/-! ## `msgs.go`: the signers -/

/-- `MsgCreateHTLC.GetSigners`. -/
def MsgCreateHTLC.GetSigners (msg : MsgCreateHTLC) : List AccAddress := [msg.Sender]

/-- `MsgClaimHTLC.GetSigners`. -/
def MsgClaimHTLC.GetSigners (msg : MsgClaimHTLC) : List AccAddress := [msg.Sender]

/-- `MsgRefundHTLC.GetSigners`. -/
def MsgRefundHTLC.GetSigners (msg : MsgRefundHTLC) : List AccAddress := [msg.Sender]

/-! ## `client/htlc/cli/sendtx.go`: the flags of the create command -/

/-- Modelled from the spec: the flag-name constants of the package's `flags.go`, which is
not among the sources. Each constant is given the flag name that the usage examples of the
commands in `sendtx.go` show for the input it carries. -/
def FlagReceiver : String := "receiver"
/-- Modelled from the spec: the constant `FlagReceiverOnOtherChain` of `flags.go`. -/
def FlagReceiverOnOtherChain : String := "receiver-on-other-chain"
/-- Modelled from the spec: the constant `FlagHashLock` of `flags.go`. -/
def FlagHashLock : String := "hash-lock"
/-- Modelled from the spec: the constant `FlagInAmount` of `flags.go`. -/
def FlagInAmount : String := "in-amount"
/-- Modelled from the spec: the constant `FlagAmount` of `flags.go`. -/
def FlagAmount : String := "amount"
/-- Modelled from the spec: the constant `FlagTimeLock` of `flags.go`. -/
def FlagTimeLock : String := "time-lock"
/-- Modelled from the spec: the constant `FlagTimestamp` of `flags.go`. -/
def FlagTimestamp : String := "timestamp"
/-- Modelled from the spec: the constant `FlagSecret` of `flags.go`. -/
def FlagSecret : String := "secret"

/-- The flags of the `Example` of `GetCmdCreateHtlc`, in the order of the usage line
`iriscli htlc create --receiver=... --receiver-on-other-chain=... --hash-lock=...
--in-amount=... --amount=... --time-lock=... --timestamp=...`. -/
def GetCmdCreateHtlc.exampleFlags : List String :=
  [FlagReceiver, FlagReceiverOnOtherChain, FlagHashLock, FlagInAmount, FlagAmount,
   FlagTimeLock, FlagTimestamp]

/-- A `cobra.Command`, as far as its flags go: the names of the flags its flag set
`cmd.Flags()` defines, and the names of the flags that carry the required mark. -/
structure Command where
  Flags : List String
  Required : List String
  deriving DecidableEq, Repr

/-- The call `cmd.Flags().AddFlagSet(fs)` of `pflag`: every flag of `fs` whose name the flag
set of the command does not define yet is added to it. -/
def Command.AddFlagSet (cmd : Command) (fs : List String) : Command :=
  { cmd with
    Flags := fs.foldl (fun defined name => if name ∈ defined then defined else defined ++ [name])
      cmd.Flags }

/-- The call `cmd.MarkFlagRequired(name)` of `cobra`: when the flag set of the command defines
`name` the flag is marked as required and the call returns `nil`; when it does not, nothing
is marked and the call returns the error `no such flag` (`true` in the second component). -/
def Command.MarkFlagRequired (cmd : Command) (name : String) : Command × Bool :=
  if name ∈ cmd.Flags then
    ({ cmd with Required := if name ∈ cmd.Required then cmd.Required
                            else cmd.Required ++ [name] }, false)
  else (cmd, true)

/-- `GetCmdCreateHtlc`, as far as the flags of the command it builds go. The flag set
`FsCreateHTLC` of the package's `flags.go`, which is not among the sources, is a parameter.
A new command defines no flag of its own; the eight calls of `MarkFlagRequired` are made in
the order of the source and the error each returns is discarded, as in the source. -/
def GetCmdCreateHtlc (FsCreateHTLC : List String) : Command :=
  let cmd : Command := { Flags := [], Required := [] }
  let cmd := cmd.AddFlagSet FsCreateHTLC
  let cmd := (cmd.MarkFlagRequired FlagReceiver).1
  let cmd := (cmd.MarkFlagRequired FlagReceiverOnOtherChain).1
  let cmd := (cmd.MarkFlagRequired FlagHashLock).1
  let cmd := (cmd.MarkFlagRequired FlagInAmount).1
  let cmd := (cmd.MarkFlagRequired FlagAmount).1
  let cmd := (cmd.MarkFlagRequired FlagTimeLock).1
  let cmd := (cmd.MarkFlagRequired FlagTimestamp).1
  let cmd := (cmd.MarkFlagRequired FlagSecret).1
  cmd

/-- Modelled from the spec: the flag set `FsCreateHTLC` of the package's `flags.go`, which is
not among the sources. It defines one flag for each input of a create request that the
specification lists besides the sender (receiver, receiverOnOtherChain, outAmount,
inAmount, hashLock, timestamp, timeLock), under the names of the usage example. -/
def FsCreateHTLC : List String :=
  [FlagReceiver, FlagReceiverOnOtherChain, FlagAmount, FlagInAmount, FlagHashLock,
   FlagTimestamp, FlagTimeLock]

/-! ## `client/bank/lcd/query.go`: the token statistic query -/

/-- The queries `QueryTokenStatsRequestHandlerFn` sends with `cliCtx.QueryWithData`. -/
inductive QueryPath where
  | tokenStats
  | pool
  | token
  deriving DecidableEq, Repr

/-- What the handler does, step by step: the calls of its collaborators and the writes to
the `http.ResponseWriter`. `WriteErrorResponse` carries the HTTP status. -/
inductive HandlerStep where
  | QueryWithData (path : QueryPath)
  | UnmarshalJSON
  | MarshalJSON
  | GetAccount
  | WriteErrorResponse (status : Nat)
  | PostProcessResponse
  deriving DecidableEq, Repr

/-- A step that writes an HTTP response. -/
def HandlerStep.isWrite : HandlerStep → Bool
  | .WriteErrorResponse _ => true
  | .PostProcessResponse => true
  | _ => false

/-- `http.StatusInternalServerError`. -/
def StatusInternalServerError : Nat := 500
/-- `http.StatusBadRequest`. -/
def StatusBadRequest : Nat := 400

/-- The outcomes of the collaborators of `QueryTokenStatsRequestHandlerFn` for one request:
the value of `isIris(strings.ToLower(assetId))`, and for each call whether it returned
without an error (`true` for `err == nil`). -/
structure TokenStatsOutcomes where
  isIris : Bool
  queryTokenStats : Bool
  unmarshalTokenStats : Bool
  queryPool : Bool
  unmarshalPool : Bool
  marshalParams : Bool
  queryToken : Bool
  unmarshalToken : Bool
  getAccount : Bool
  deriving DecidableEq, Repr

/-- The function returned by `QueryTokenStatsRequestHandlerFn`, as the list of the steps it
performs for one request. In the branch for the IRIS denominations the error check after
the first query has no `return`, so the execution goes on with the decoding; the other
error checks return. In the other branch the error check after the `TODO` comment tests an
`err` that is `nil` there and never fires. -/
def QueryTokenStatsRequestHandlerFn (o : TokenStatsOutcomes) : List HandlerStep :=
  if o.isIris then
    [.QueryWithData .tokenStats] ++
    (if !o.queryTokenStats then [.WriteErrorResponse StatusInternalServerError] else []) ++
    [.UnmarshalJSON] ++
    (if !o.unmarshalTokenStats then [.WriteErrorResponse StatusInternalServerError]
     else
      [.QueryWithData .pool] ++
      (if !o.queryPool then [.WriteErrorResponse StatusInternalServerError]
       else
        [.UnmarshalJSON] ++
        (if !o.unmarshalPool then [.WriteErrorResponse StatusInternalServerError]
         else [.PostProcessResponse])))
  else
    [.MarshalJSON] ++
    (if !o.marshalParams then [.WriteErrorResponse StatusBadRequest]
     else
      [.QueryWithData .token] ++
      (if !o.queryToken then [.WriteErrorResponse StatusBadRequest]
       else
        [.UnmarshalJSON] ++
        (if !o.unmarshalToken then [.WriteErrorResponse StatusBadRequest]
         else
          [.GetAccount] ++
          (if !o.getAccount then [.WriteErrorResponse StatusBadRequest]
           else [.PostProcessResponse]))))

/-- The number of HTTP responses written during a run. -/
def countWrites (steps : List HandlerStep) : Nat := (steps.filter HandlerStep.isWrite).length

/-! ## Sample values -/

/-- A sample address, three bytes long. -/
def sampleAddr : AccAddress := [1, 2, 3]

/-- A sample coin, 100 of the denomination `iris`. -/
def sampleCoin : Coin := ⟨[105, 114, 105, 115], 100⟩

/-- A sample create message, all of whose fields are valid, with the given time lock. -/
def sampleCreate (timeLock : Nat) : MsgCreateHTLC :=
  NewMsgCreateHTLC sampleAddr [4, 5, 6] [7] sampleCoin 0 (hex64 97) 0 timeLock

/-- A sample environment in which every collaborator succeeds. -/
def sampleEnv : CliEnv :=
  { GetFromAddress := .ok sampleAddr
    AccAddressFromBech32 := fun _ => .ok [4, 5, 6]
    ParseCoin := fun _ => .ok sampleCoin
    SendOrPrintTx := fun _ => none }

/-- Sample flag values: the hash lock is sixty-four times `a`, the secret sixty-four
times `b`, the time lock is the given one. -/
def sampleFlags (timeLock : Int) : Flags :=
  { receiver := [114]
    receiverOnOtherChain := [48, 55]
    inAmount := 0
    amount := [49]
    hashLock := hex64 97
    timestamp := 0
    timeLock := timeLock
    secret := hex64 98 }

/-! ## Theorems -/

/-- The hash-lock check passes exactly on the strings that decode to 32 bytes. -/
theorem ValidateSecretHashLock_eq_none_iff (s : GoString) :
    ValidateSecretHashLock s = none ↔ DecodesTo32 s := by
  unfold ValidateSecretHashLock DecodesTo32
  cases h : DecodeString s <;> simp

/-- The secret check passes exactly on the strings that decode to 32 bytes. -/
theorem ValidateSecret_eq_none_iff (s : GoString) :
    ValidateSecret s = none ↔ DecodesTo32 s := by
  unfold ValidateSecret DecodesTo32
  cases h : DecodeString s <;> simp

/-- Sixty-four times the letter `a` decodes to 32 bytes. -/
theorem decodesTo32_hex64_a : DecodesTo32 (hex64 97) := ⟨_, rfl, rfl⟩

/-- Sixty-four times the letter `b` decodes to 32 bytes. -/
theorem decodesTo32_hex64_b : DecodesTo32 (hex64 98) := ⟨_, rfl, rfl⟩

/-- C1: a create message passes `ValidateBasic` if and only if its sender and receiver are
non-empty, the receiver on the other chain has at most 32 bytes, the out amount is strictly
positive, the hash lock is a hex string decoding to exactly 32 bytes, and the time lock is
between 50 and 25480. -/
theorem C1_create_validateBasic_ok_iff (msg : MsgCreateHTLC) :
    msg.ValidateBasic = none ↔
      (msg.Sender.length ≠ 0 ∧ msg.Receiver.length ≠ 0 ∧
        msg.ReceiverOnOtherChain.length ≤ 32 ∧ 0 < msg.OutAmount.Amount ∧
        DecodesTo32 msg.SecretHashLock ∧ 50 ≤ msg.TimeLock ∧ msg.TimeLock ≤ 25480) := by
  rw [← ValidateSecretHashLock_eq_none_iff]
  unfold MsgCreateHTLC.ValidateBasic Coin.IsPositive MaxLengthForAddressOnOtherChain
    MinTimeLock MaxTimeLock
  by_cases hs : msg.Sender.length = 0
  · simp [hs]
  by_cases hr : msg.Receiver.length = 0
  · simp [hs, hr]
  by_cases hc : msg.ReceiverOnOtherChain.length > 32
  · simp only [hs, hr, hc, if_true, if_false]
    constructor
    · intro h; cases h
    · intro h; omega
  by_cases ha : 0 < msg.OutAmount.Amount
  · cases h : ValidateSecretHashLock msg.SecretHashLock
    · simp only [hs, hr, hc, ha, if_false, decide_True, Bool.not_true]
      by_cases ht : msg.TimeLock < 50 ∨ msg.TimeLock > 25480
      · simp only [ht, if_true]
        constructor
        · intro h; cases h
        · intro h; omega
      · simp only [ht, if_false]
        constructor
        · intro _
          exact ⟨by omega, by omega, by omega, trivial, trivial, by omega, by omega⟩
        · intro _; trivial
    · simp [hs, hr, hc, ha]
  · simp [hs, hr, hc, ha]

/-- C2: a claim message passes `ValidateBasic` if and only if its sender is non-empty and both
the secret and the hash lock are hex strings decoding to exactly 32 bytes; with a non-empty
sender a malformed secret fails with `ErrInvalidSecret`, and with a non-empty sender and a
well-formed secret a malformed hash lock fails with `ErrInvalidSecretHashLock`. -/
theorem C2_claim_validateBasic (msg : MsgClaimHTLC) :
    (msg.ValidateBasic = none ↔
      (msg.Sender.length ≠ 0 ∧ DecodesTo32 msg.Secret ∧ DecodesTo32 msg.SecretHashLock)) ∧
    (msg.Sender.length ≠ 0 → ¬ DecodesTo32 msg.Secret →
      msg.ValidateBasic = some .ErrInvalidSecret) ∧
    (msg.Sender.length ≠ 0 → DecodesTo32 msg.Secret → ¬ DecodesTo32 msg.SecretHashLock →
      msg.ValidateBasic = some .ErrInvalidSecretHashLock) := by
  rw [← ValidateSecretHashLock_eq_none_iff msg.SecretHashLock,
    ← ValidateSecret_eq_none_iff msg.Secret]
  unfold MsgClaimHTLC.ValidateBasic
  by_cases hs : msg.Sender.length = 0
  · simp [hs]
  · cases h1 : ValidateSecret msg.Secret <;>
      cases h2 : ValidateSecretHashLock msg.SecretHashLock <;> simp [hs]

/-- C2 at concrete messages: a well-formed claim passes, one with an empty secret fails with
`ErrInvalidSecret`, one with the hash lock `x` fails with `ErrInvalidSecretHashLock`. -/
theorem C2_claim_validateBasic_witness :
    (NewMsgClaimHTLC sampleAddr (hex64 98) (hex64 97)).ValidateBasic = none ∧
    (NewMsgClaimHTLC sampleAddr [] (hex64 97)).ValidateBasic = some .ErrInvalidSecret ∧
    (NewMsgClaimHTLC sampleAddr (hex64 98) [120]).ValidateBasic
      = some .ErrInvalidSecretHashLock :=
  ⟨(C2_claim_validateBasic (NewMsgClaimHTLC sampleAddr (hex64 98) (hex64 97))).1.2
      ⟨by decide, decodesTo32_hex64_b, decodesTo32_hex64_a⟩,
   (C2_claim_validateBasic (NewMsgClaimHTLC sampleAddr [] (hex64 97))).2.1
      (by decide) (by decide),
   (C2_claim_validateBasic (NewMsgClaimHTLC sampleAddr (hex64 98) [120])).2.2
      (by decide) decodesTo32_hex64_b (by decide)⟩

/-- C3: a refund message passes `ValidateBasic` if and only if its sender is non-empty and
the hash lock is a hex string decoding to exactly 32 bytes; an empty sender fails with
`ErrInvalidAddress`, and a non-empty sender with a malformed hash lock fails with
`ErrInvalidSecretHashLock`. -/
theorem C3_refund_validateBasic (msg : MsgRefundHTLC) :
    (msg.ValidateBasic = none ↔
      (msg.Sender.length ≠ 0 ∧ DecodesTo32 msg.SecretHashLock)) ∧
    (msg.Sender.length = 0 → msg.ValidateBasic = some .ErrInvalidAddress) ∧
    (msg.Sender.length ≠ 0 → ¬ DecodesTo32 msg.SecretHashLock →
      msg.ValidateBasic = some .ErrInvalidSecretHashLock) := by
  rw [← ValidateSecretHashLock_eq_none_iff msg.SecretHashLock]
  unfold MsgRefundHTLC.ValidateBasic
  by_cases hs : msg.Sender.length = 0
  · simp [hs]
  · cases h2 : ValidateSecretHashLock msg.SecretHashLock <;> simp [hs]

/-- C3 at concrete messages: a well-formed refund passes, one with an empty sender fails
with `ErrInvalidAddress`, one with a 62-character hash lock fails with
`ErrInvalidSecretHashLock`. -/
theorem C3_refund_validateBasic_witness :
    (NewMsgRefundHTLC sampleAddr (hex64 97)).ValidateBasic = none ∧
    (NewMsgRefundHTLC [] (hex64 97)).ValidateBasic = some .ErrInvalidAddress ∧
    (NewMsgRefundHTLC sampleAddr (List.replicate 62 97)).ValidateBasic
      = some .ErrInvalidSecretHashLock :=
  ⟨(C3_refund_validateBasic (NewMsgRefundHTLC sampleAddr (hex64 97))).1.2
      ⟨by decide, decodesTo32_hex64_a⟩,
   (C3_refund_validateBasic (NewMsgRefundHTLC [] (hex64 97))).2.1 rfl,
   (C3_refund_validateBasic (NewMsgRefundHTLC sampleAddr (List.replicate 62 97))).2.2
      (by decide) (by decide)⟩

/-- A create message whose other fields are valid and whose time lock is out of range fails
with `ErrInvalidSecretHashLock`, the kind of the hash lock. -/
theorem create_timeLock_out_of_range_kind (msg : MsgCreateHTLC)
    (hs : msg.Sender.length ≠ 0) (hr : msg.Receiver.length ≠ 0)
    (hc : msg.ReceiverOnOtherChain.length ≤ 32) (ha : 0 < msg.OutAmount.Amount)
    (hh : DecodesTo32 msg.SecretHashLock) (ht : msg.TimeLock < 50 ∨ 25480 < msg.TimeLock) :
    msg.ValidateBasic = some .ErrInvalidSecretHashLock := by
  rw [← ValidateSecretHashLock_eq_none_iff] at hh
  unfold MsgCreateHTLC.ValidateBasic Coin.IsPositive MaxLengthForAddressOnOtherChain
    MinTimeLock MaxTimeLock
  have hc2 : ¬ msg.ReceiverOnOtherChain.length > 32 := by omega
  have ht2 : msg.TimeLock < 50 ∨ msg.TimeLock > 25480 := ht
  simp only [hh, hs, hr, ha, hc2, ht2, if_true, if_false, decide_True, Bool.not_true]
  rfl

/-- C4: the create message whose fields are all valid except for the time lock 49 fails
with `ErrInvalidSecretHashLock`, not with `ErrInvalidTimeLock`. -/
theorem C4_timeLock_49_fails_with_hashLock_kind :
    (sampleCreate 49).ValidateBasic = some .ErrInvalidSecretHashLock ∧
    (sampleCreate 49).ValidateBasic ≠ some .ErrInvalidTimeLock := by
  decide

/-- C5: when exactly one checked field of a create message is invalid and it is not the time
lock, `ValidateBasic` fails with the kind of that field: `ErrInvalidAddress` for an empty
sender, an empty receiver or a receiver on the other chain longer than 32 bytes,
`ErrInvalidAmount` for a non-positive out amount, `ErrInvalidSecretHashLock` for a hash lock
that does not decode to exactly 32 bytes. -/
theorem C5_create_single_invalid_field_kind (msg : MsgCreateHTLC) :
    (msg.Sender.length = 0 → msg.Receiver.length ≠ 0 →
      msg.ReceiverOnOtherChain.length ≤ 32 → 0 < msg.OutAmount.Amount →
      DecodesTo32 msg.SecretHashLock → 50 ≤ msg.TimeLock → msg.TimeLock ≤ 25480 →
      msg.ValidateBasic = some .ErrInvalidAddress) ∧
    (msg.Sender.length ≠ 0 → msg.Receiver.length = 0 →
      msg.ReceiverOnOtherChain.length ≤ 32 → 0 < msg.OutAmount.Amount →
      DecodesTo32 msg.SecretHashLock → 50 ≤ msg.TimeLock → msg.TimeLock ≤ 25480 →
      msg.ValidateBasic = some .ErrInvalidAddress) ∧
    (msg.Sender.length ≠ 0 → msg.Receiver.length ≠ 0 →
      32 < msg.ReceiverOnOtherChain.length → 0 < msg.OutAmount.Amount →
      DecodesTo32 msg.SecretHashLock → 50 ≤ msg.TimeLock → msg.TimeLock ≤ 25480 →
      msg.ValidateBasic = some .ErrInvalidAddress) ∧
    (msg.Sender.length ≠ 0 → msg.Receiver.length ≠ 0 →
      msg.ReceiverOnOtherChain.length ≤ 32 → msg.OutAmount.Amount ≤ 0 →
      DecodesTo32 msg.SecretHashLock → 50 ≤ msg.TimeLock → msg.TimeLock ≤ 25480 →
      msg.ValidateBasic = some .ErrInvalidAmount) ∧
    (msg.Sender.length ≠ 0 → msg.Receiver.length ≠ 0 →
      msg.ReceiverOnOtherChain.length ≤ 32 → 0 < msg.OutAmount.Amount →
      ¬ DecodesTo32 msg.SecretHashLock → 50 ≤ msg.TimeLock → msg.TimeLock ≤ 25480 →
      msg.ValidateBasic = some .ErrInvalidSecretHashLock) := by
  rw [← ValidateSecretHashLock_eq_none_iff msg.SecretHashLock]
  unfold MsgCreateHTLC.ValidateBasic Coin.IsPositive MaxLengthForAddressOnOtherChain
  refine ⟨?_, ?_, ?_, ?_, ?_⟩
  · intro hs _ _ _ _ _ _
    simp only [hs, if_true]
  · intro hs hr _ _ _ _ _
    simp only [hs, hr, if_true, if_false]
  · intro hs hr hc _ _ _ _
    have hc2 : msg.ReceiverOnOtherChain.length > 32 := hc
    simp only [hs, hr, hc2, if_true, if_false]
  · intro hs hr hc ha _ _ _
    have hc2 : ¬ msg.ReceiverOnOtherChain.length > 32 := by omega
    have ha2 : ¬ 0 < msg.OutAmount.Amount := by omega
    simp only [hs, hr, hc2, ha2, if_false, decide_False, Bool.not_false, if_true]
  · intro hs hr hc ha hh _ _
    have hc2 : ¬ msg.ReceiverOnOtherChain.length > 32 := by omega
    cases h : ValidateSecretHashLock msg.SecretHashLock
    · exact absurd h hh
    · simp only [hs, hr, hc2, ha, if_false, decide_True, Bool.not_true]
      rfl

/-- C5 at five concrete create messages, each with exactly one invalid field. -/
theorem C5_create_single_invalid_field_kind_witness :
    (NewMsgCreateHTLC [] [4, 5, 6] [7] sampleCoin 0 (hex64 97) 0 50).ValidateBasic
      = some .ErrInvalidAddress ∧
    (NewMsgCreateHTLC sampleAddr [] [7] sampleCoin 0 (hex64 97) 0 50).ValidateBasic
      = some .ErrInvalidAddress ∧
    (NewMsgCreateHTLC sampleAddr [4, 5, 6] (List.replicate 33 7) sampleCoin 0 (hex64 97) 0
      50).ValidateBasic = some .ErrInvalidAddress ∧
    (NewMsgCreateHTLC sampleAddr [4, 5, 6] [7] ⟨[105], 0⟩ 0 (hex64 97) 0 50).ValidateBasic
      = some .ErrInvalidAmount ∧
    (NewMsgCreateHTLC sampleAddr [4, 5, 6] [7] sampleCoin 0 (List.replicate 64 103) 0
      50).ValidateBasic = some .ErrInvalidSecretHashLock :=
  ⟨(C5_create_single_invalid_field_kind
      (NewMsgCreateHTLC [] [4, 5, 6] [7] sampleCoin 0 (hex64 97) 0 50)).1
      rfl (by decide) (by decide) (by decide) decodesTo32_hex64_a (by decide) (by decide),
   (C5_create_single_invalid_field_kind
      (NewMsgCreateHTLC sampleAddr [] [7] sampleCoin 0 (hex64 97) 0 50)).2.1
      (by decide) rfl (by decide) (by decide) decodesTo32_hex64_a (by decide) (by decide),
   (C5_create_single_invalid_field_kind
      (NewMsgCreateHTLC sampleAddr [4, 5, 6] (List.replicate 33 7) sampleCoin 0 (hex64 97) 0
        50)).2.2.1
      (by decide) (by decide) (by decide) (by decide) decodesTo32_hex64_a (by decide)
      (by decide),
   (C5_create_single_invalid_field_kind
      (NewMsgCreateHTLC sampleAddr [4, 5, 6] [7] ⟨[105], 0⟩ 0 (hex64 97) 0 50)).2.2.2.1
      (by decide) (by decide) (by decide) (by decide) decodesTo32_hex64_a (by decide)
      (by decide),
   (C5_create_single_invalid_field_kind
      (NewMsgCreateHTLC sampleAddr [4, 5, 6] [7] sampleCoin 0 (List.replicate 64 103) 0
        50)).2.2.2.2
      (by decide) (by decide) (by decide) (by decide) (by decide) (by decide) (by decide)⟩

/-- C6: for a create message whose other fields are valid, `ValidateBasic` accepts the time
locks 50 and 25480 and rejects the time locks 49 and 25481. -/
theorem C6_timeLock_boundaries (msg : MsgCreateHTLC)
    (hs : msg.Sender.length ≠ 0) (hr : msg.Receiver.length ≠ 0)
    (hc : msg.ReceiverOnOtherChain.length ≤ 32) (ha : 0 < msg.OutAmount.Amount)
    (hh : DecodesTo32 msg.SecretHashLock) :
    MsgCreateHTLC.ValidateBasic { msg with TimeLock := MinTimeLock } = none ∧
    MsgCreateHTLC.ValidateBasic { msg with TimeLock := MaxTimeLock } = none ∧
    MsgCreateHTLC.ValidateBasic { msg with TimeLock := 50 } = none ∧
    MsgCreateHTLC.ValidateBasic { msg with TimeLock := 25480 } = none ∧
    MsgCreateHTLC.ValidateBasic { msg with TimeLock := 49 } ≠ none ∧
    MsgCreateHTLC.ValidateBasic { msg with TimeLock := 25481 } ≠ none := by
  rw [← ValidateSecretHashLock_eq_none_iff] at hh
  have hc2 : ¬ msg.ReceiverOnOtherChain.length > 32 := by omega
  unfold MsgCreateHTLC.ValidateBasic Coin.IsPositive MaxLengthForAddressOnOtherChain
    MinTimeLock MaxTimeLock
  simp only [hh, hs, hr, ha, hc2, if_false, decide_True, Bool.not_true]
  simp

/-- C6 at the sample create message. -/
theorem C6_timeLock_boundaries_witness :
    (sampleCreate 50).ValidateBasic = none ∧ (sampleCreate 25480).ValidateBasic = none ∧
    (sampleCreate 49).ValidateBasic ≠ none ∧ (sampleCreate 25481).ValidateBasic ≠ none :=
  have h := C6_timeLock_boundaries (sampleCreate 0) (by decide) (by decide) (by decide)
    (by decide) decodesTo32_hex64_a
  ⟨h.2.2.1, h.2.2.2.1, h.2.2.2.2.1, h.2.2.2.2.2⟩

/-- C7: for every non-empty sender and every two strings that each decode to exactly 32
bytes, the claim message built from them passes `ValidateBasic`, whatever the relation
between the two strings. -/
theorem C7_claim_ignores_secret_hashLock_relation (sender : AccAddress)
    (secret secretHashLock : GoString) (hs : sender.length ≠ 0)
    (h1 : DecodesTo32 secret) (h2 : DecodesTo32 secretHashLock) :
    (NewMsgClaimHTLC sender secret secretHashLock).ValidateBasic = none := by
  rw [← ValidateSecret_eq_none_iff] at h1
  rw [← ValidateSecretHashLock_eq_none_iff] at h2
  unfold MsgClaimHTLC.ValidateBasic NewMsgClaimHTLC
  simp only [hs, h1, h2, if_false]

/-- C7 at two concrete claims: one whose secret and hash lock are the same string, one whose
hash lock is an unrelated string. -/
theorem C7_claim_ignores_secret_hashLock_relation_witness :
    (NewMsgClaimHTLC sampleAddr (hex64 97) (hex64 97)).ValidateBasic = none ∧
    (NewMsgClaimHTLC sampleAddr (hex64 98) (hex64 97)).ValidateBasic = none :=
  ⟨C7_claim_ignores_secret_hashLock_relation sampleAddr (hex64 97) (hex64 97) (by decide)
      decodesTo32_hex64_a decodesTo32_hex64_a,
   C7_claim_ignores_secret_hashLock_relation sampleAddr (hex64 98) (hex64 97) (by decide)
      decodesTo32_hex64_b decodesTo32_hex64_a⟩

/-- The message the claim command builds: its `Secret` is the value of `--hash-lock` and its
`SecretHashLock` the value of `--secret`, since `RunE` passes `hashLock` in the position of
the parameter `secret` of `NewMsgClaimHTLC` and `secret` in that of `secretHashLock`. -/
theorem claim_command_message_fields (env : CliEnv) (flags : Flags) (sender : AccAddress)
    (hfrom : env.GetFromAddress = .ok sender) (msgs : List Msg)
    (hsent : msgs ∈ (GetCmdClaimHtlc.RunE env flags).sent) :
    msgs = [Msg.claim { Sender := sender, Secret := flags.hashLock,
                        SecretHashLock := flags.secret }] := by
  unfold GetCmdClaimHtlc.RunE at hsent
  simp only [hfrom] at hsent
  split at hsent
  · simp at hsent
  · simpa [NewMsgClaimHTLC] using hsent

/-- C8: run with `--secret` sixty-four times `b` and `--hash-lock` sixty-four times `a`, the
claim command sends a message whose `Secret` is sixty-four times `a` (the hash-lock flag)
and whose `SecretHashLock` is sixty-four times `b` (the secret flag). -/
theorem C8_claim_command_swaps_secret_and_hashLock :
    (sampleFlags 50).secret = hex64 98 ∧ (sampleFlags 50).hashLock = hex64 97 ∧
    GetCmdClaimHtlc.RunE sampleEnv (sampleFlags 50) =
      { err := none
        sent := [[Msg.claim { Sender := sampleAddr, Secret := hex64 97,
                              SecretHashLock := hex64 98 }]] } ∧
    hex64 97 ≠ hex64 98 := by
  refine ⟨rfl, rfl, ?_, ?_⟩ <;> decide

/-- C9, as stated, fails: it is not the case that the htlc module is among the end-of-block
handlers and absent from the begin-of-block handlers. -/
theorem C9_htlc_end_not_begin_refuted :
    ¬ (htlctypes.ModuleName ∈ OrderEndBlockers ∧
       htlctypes.ModuleName ∉ OrderBeginBlockers) := by
  decide

/-- C9, amended: the htlc module is listed among the begin-of-block handlers, which run
before the transactions of the block, and not among the end-of-block handlers. -/
theorem C9_htlc_begin_not_end :
    htlctypes.ModuleName ∈ OrderBeginBlockers ∧
    htlctypes.ModuleName ∉ OrderEndBlockers := by
  decide

/-- The last step of each command: a message reaches `SendOrPrintTx` only when its
`ValidateBasic` returned `nil`. -/
theorem mem_sent_of_validated (msg : Msg) (r : Option CliError) (msgs : List Msg) (m : Msg)
    (h : msgs ∈ (match msg.ValidateBasic with
      | some err => ({ err := some (.validation err), sent := [] } : CmdResult)
      | none => { err := r, sent := [[msg]] }).sent)
    (hm : m ∈ msgs) : m.ValidateBasic = none := by
  cases hv : msg.ValidateBasic with
  | some e => rw [hv] at h; simp at h
  | none =>
    rw [hv] at h
    simp only [List.mem_singleton] at h
    subst h
    simp only [List.mem_singleton] at hm
    subst hm
    exact hv

/-- C10: in each of the create, claim and refund commands, when the constructed message
fails `ValidateBasic` the command returns that validation error and `SendOrPrintTx` is not
invoked; and every message handed to `SendOrPrintTx` passes `ValidateBasic`. -/
theorem C10_commands_validate_before_sending (env : CliEnv) (flags : Flags) :
    (∀ sender receiver receiverOnOtherChain coin err,
      env.GetFromAddress = .ok sender →
      env.AccAddressFromBech32 flags.receiver = .ok receiver →
      DecodeString flags.receiverOnOtherChain = .ok receiverOnOtherChain →
      env.ParseCoin flags.amount = .ok coin →
      (NewMsgCreateHTLC sender receiver receiverOnOtherChain coin (uint64 flags.inAmount)
        flags.hashLock (uint64 flags.timestamp) (uint64 flags.timeLock)).ValidateBasic
        = some err →
      GetCmdCreateHtlc.RunE env flags = { err := some (.validation err), sent := [] }) ∧
    (∀ sender err,
      env.GetFromAddress = .ok sender →
      (NewMsgClaimHTLC sender flags.hashLock flags.secret).ValidateBasic = some err →
      GetCmdClaimHtlc.RunE env flags = { err := some (.validation err), sent := [] }) ∧
    (∀ sender err,
      env.GetFromAddress = .ok sender →
      (NewMsgRefundHTLC sender flags.hashLock).ValidateBasic = some err →
      GetCmdRefundHtlc.RunE env flags = { err := some (.validation err), sent := [] }) ∧
    (∀ msgs ∈ (GetCmdCreateHtlc.RunE env flags).sent, ∀ m ∈ msgs, m.ValidateBasic = none) ∧
    (∀ msgs ∈ (GetCmdClaimHtlc.RunE env flags).sent, ∀ m ∈ msgs, m.ValidateBasic = none) ∧
    (∀ msgs ∈ (GetCmdRefundHtlc.RunE env flags).sent, ∀ m ∈ msgs, m.ValidateBasic = none) := by
  refine ⟨?_, ?_, ?_, ?_, ?_, ?_⟩
  · intro sender receiver receiverOnOtherChain coin err h1 h2 h3 h4 h5
    unfold GetCmdCreateHtlc.RunE
    simp only [h1, h2, h3, h4, Msg.ValidateBasic, h5]
  · intro sender err h1 h5
    unfold GetCmdClaimHtlc.RunE
    simp only [h1, Msg.ValidateBasic, h5]
  · intro sender err h1 h5
    unfold GetCmdRefundHtlc.RunE
    simp only [h1, Msg.ValidateBasic, h5]
  · intro msgs hmsgs m hm
    unfold GetCmdCreateHtlc.RunE at hmsgs
    repeat (split at hmsgs; · simp at hmsgs)
    exact mem_sent_of_validated _ _ _ _ hmsgs hm
  · intro msgs hmsgs m hm
    unfold GetCmdClaimHtlc.RunE at hmsgs
    repeat (split at hmsgs; · simp at hmsgs)
    exact mem_sent_of_validated _ _ _ _ hmsgs hm
  · intro msgs hmsgs m hm
    unfold GetCmdRefundHtlc.RunE at hmsgs
    repeat (split at hmsgs; · simp at hmsgs)
    exact mem_sent_of_validated _ _ _ _ hmsgs hm

/-- C10 at concrete runs: with the time lock 49 the create command returns the validation
error and sends nothing, as do the claim command with an empty secret flag and the refund
command with an empty hash-lock flag; the message sent by the create command with the time
lock 50 passes `ValidateBasic`. -/
theorem C10_commands_validate_before_sending_witness :
    GetCmdCreateHtlc.RunE sampleEnv (sampleFlags 49)
      = { err := some (.validation .ErrInvalidSecretHashLock), sent := [] } ∧
    GetCmdClaimHtlc.RunE sampleEnv { sampleFlags 50 with hashLock := [] }
      = { err := some (.validation .ErrInvalidSecret), sent := [] } ∧
    GetCmdRefundHtlc.RunE sampleEnv { sampleFlags 50 with hashLock := [] }
      = { err := some (.validation .ErrInvalidSecretHashLock), sent := [] } ∧
    (GetCmdCreateHtlc.RunE sampleEnv (sampleFlags 50)).sent ≠ [] ∧
    (∀ msgs ∈ (GetCmdCreateHtlc.RunE sampleEnv (sampleFlags 50)).sent,
      ∀ m ∈ msgs, m.ValidateBasic = none) :=
  ⟨(C10_commands_validate_before_sending sampleEnv (sampleFlags 49)).1
      sampleAddr [4, 5, 6] [7] sampleCoin .ErrInvalidSecretHashLock rfl rfl rfl rfl
      (by decide),
   (C10_commands_validate_before_sending sampleEnv { sampleFlags 50 with hashLock := [] }).2.1
      sampleAddr .ErrInvalidSecret rfl (by decide),
   (C10_commands_validate_before_sending sampleEnv
      { sampleFlags 50 with hashLock := [] }).2.2.1
      sampleAddr .ErrInvalidSecretHashLock rfl (by decide),
   by decide,
   (C10_commands_validate_before_sending sampleEnv (sampleFlags 50)).2.2.2.1⟩

/-! ### Go maps and the module accounts -/

/-- Reading a map after an assignment. -/
theorem GoMap.lookup_store {κ ν : Type} [DecidableEq κ] (m : GoMap κ ν) (k : κ) (v : ν)
    (x : κ) :
    GoMap.lookup (GoMap.store m k v) x = if x = k then some v else GoMap.lookup m x := by
  induction m with
  | nil => simp [GoMap.store, GoMap.lookup]
  | cons e m ih =>
    obtain ⟨k1, v1⟩ := e
    by_cases h : k = k1
    · subst h
      by_cases hx : x = k <;> simp [GoMap.store, GoMap.lookup, hx]
    · by_cases hx1 : x = k1
      · have hxk : x ≠ k := fun hxk => h (hxk ▸ hx1)
        have hk1 : ¬ k1 = k := fun hk => h hk.symm
        simp [GoMap.store, GoMap.lookup, h, hx1, hk1]
      · simp [GoMap.store, GoMap.lookup, h, hx1, ih]

/-- A key has a value exactly when it is among the keys. -/
theorem GoMap.mem_keys_iff {κ ν : Type} [DecidableEq κ] (m : GoMap κ ν) (x : κ) :
    x ∈ GoMap.keys m ↔ ∃ v, GoMap.lookup m x = some v := by
  induction m with
  | nil => simp [GoMap.keys, GoMap.lookup]
  | cons e m ih =>
    obtain ⟨k1, v1⟩ := e
    by_cases hx : x = k1
    · simp [GoMap.keys, GoMap.lookup, hx]
    · have ih2 : x ∈ List.map Prod.fst m ↔ ∃ v, GoMap.lookup m x = some v := ih
      simp [GoMap.keys, GoMap.lookup, hx, ih2]

/-- In a map with distinct keys, an entry is found under its key. -/
theorem GoMap.lookup_of_mem {κ ν : Type} [DecidableEq κ] (m : GoMap κ ν)
    (hnd : (GoMap.keys m).Nodup) (k : κ) (v : ν) (h : (k, v) ∈ m) :
    GoMap.lookup m k = some v := by
  induction m with
  | nil => simp at h
  | cons e m ih =>
    obtain ⟨k1, v1⟩ := e
    have hnd2 : k1 ∉ List.map Prod.fst m ∧ (List.map Prod.fst m).Nodup := by
      simpa [GoMap.keys] using hnd
    rcases List.mem_cons.1 h with heq | hmem
    · cases heq
      simp [GoMap.lookup]
    · have hk : k ≠ k1 := by
        rintro rfl
        exact hnd2.1 (List.mem_map_of_mem Prod.fst hmem)
      simp only [GoMap.lookup, hk, if_false]
      exact ih hnd2.2 hmem

/-- A loop of assignments does not change the value of a key it never assigns. -/
theorem lookup_foldl_store_of_not_mem {ε κ ν : Type} [DecidableEq κ] (f : ε → κ) (g : ε → ν)
    (l : List ε) (m0 : GoMap κ ν) (a : κ) (h : ∀ e ∈ l, f e ≠ a) :
    GoMap.lookup (l.foldl (fun m e => GoMap.store m (f e) (g e)) m0) a
      = GoMap.lookup m0 a := by
  induction l generalizing m0 with
  | nil => rfl
  | cons e l ih =>
    have hne : a ≠ f e := fun hae => h e (List.mem_cons_self _ _) hae.symm
    rw [List.foldl_cons, ih _ (fun e2 he2 => h e2 (List.mem_cons_of_mem _ he2)),
      GoMap.lookup_store, if_neg hne]

/-- After a loop of assignments, a key that was assigned holds the value of one of its
assignments. -/
theorem lookup_foldl_store_of_mem {ε κ ν : Type} [DecidableEq κ] (f : ε → κ) (g : ε → ν)
    (l : List ε) (m0 : GoMap κ ν) (a : κ) (h : ∃ e ∈ l, f e = a) :
    ∃ e ∈ l, f e = a ∧
      GoMap.lookup (l.foldl (fun m e => GoMap.store m (f e) (g e)) m0) a = some (g e) := by
  induction l generalizing m0 with
  | nil => simp at h
  | cons e l ih =>
    by_cases hl : ∃ e2 ∈ l, f e2 = a
    · obtain ⟨e2, he2, hfe2, hval⟩ := ih (GoMap.store m0 (f e) (g e)) hl
      exact ⟨e2, List.mem_cons_of_mem _ he2, hfe2, hval⟩
    · have hnone : ∀ e2 ∈ l, f e2 ≠ a := fun e2 he2 hfe2 => hl ⟨e2, he2, hfe2⟩
      obtain ⟨e1, he1, hfe1⟩ := h
      have he : f e = a := by
        rcases List.mem_cons.1 he1 with rfl | hmem
        · exact hfe1
        · exact absurd hfe1 (hnone e1 hmem)
      refine ⟨e, List.mem_cons_self _ _, he, ?_⟩
      rw [List.foldl_cons, lookup_foldl_store_of_not_mem f g l _ a hnone,
        GoMap.lookup_store, if_pos he.symm]

/-- The keys of `maccPerms` are pairwise distinct. -/
theorem maccPerms_keys_nodup : (GoMap.keys maccPerms).Nodup := by decide

/-- Reading `allowedReceivingModAcc`: only the distribution module is allowed. -/
theorem allowedReceivingModAcc_index (acc : String) :
    allowedReceivingModAcc.index acc = decide (acc = distrtypes.ModuleName) := by
  unfold allowedReceivingModAcc.index allowedReceivingModAcc
  by_cases h : acc = distrtypes.ModuleName <;> simp [GoMap.lookup, h]

/-- The lookups in `allowedReceivingModAcc`. -/
theorem allowedReceivingModAcc_lookup (acc : String) :
    GoMap.lookup allowedReceivingModAcc acc
      = if acc = distrtypes.ModuleName then some true else none := by
  unfold allowedReceivingModAcc
  by_cases h : acc = distrtypes.ModuleName <;> simp [GoMap.lookup, h]

/-- The first component of the loop state of `GetMaccPerms` is the copy, the second stays
the variable. -/
theorem GetMaccPerms_foldl (global : GoMap String (List String))
    (order : List (String × List String)) (m0 : GoMap String (List String)) :
    order.foldl (fun st e => (GoMap.store st.1 e.1 e.2, st.2)) (m0, global)
      = (order.foldl (fun m e => GoMap.store m e.1 e.2) m0, global) := by
  induction order generalizing m0 with
  | nil => rfl
  | cons e order ih => rw [List.foldl_cons, List.foldl_cons, ih]

/-- C11: the htlc module account is registered in `maccPerms` with an empty permission
list, and, the module-address function giving the htlc and the distribution module
different addresses, `BlockedAddrs` maps the address of the htlc module account to `true`,
in whatever order the loop visits `maccPerms`. -/
theorem C11_htlc_escrow_account_blocked (NewModuleAddress : String → String)
    (order : List (String × List String)) (hperm : order.Perm maccPerms)
    (hdistinct : NewModuleAddress distrtypes.ModuleName
      ≠ NewModuleAddress htlctypes.ModuleName) :
    GoMap.lookup maccPerms htlctypes.ModuleName = some [] ∧
    GoMap.lookup (BlockedAddrs NewModuleAddress order)
      (NewModuleAddress htlctypes.ModuleName) = some true := by
  refine ⟨by decide, ?_⟩
  have hmem : (htlctypes.ModuleName, ([] : List String)) ∈ order :=
    hperm.mem_iff.2 (by decide)
  obtain ⟨e, _, hfe, hval⟩ :=
    lookup_foldl_store_of_mem (fun e : String × List String => NewModuleAddress e.1)
      (fun e => !allowedReceivingModAcc.index e.1) order GoMap.empty
      (NewModuleAddress htlctypes.ModuleName) ⟨_, hmem, rfl⟩
  have hne : e.1 ≠ distrtypes.ModuleName := by
    intro heq
    rw [heq] at hfe
    exact hdistinct hfe
  unfold BlockedAddrs
  rw [hval, allowedReceivingModAcc_index]
  simp [hne]

/-- C11 with module names as their own addresses and the loop visiting `maccPerms` in
reverse order. -/
theorem C11_htlc_escrow_account_blocked_witness :
    GoMap.lookup maccPerms htlctypes.ModuleName = some [] ∧
    GoMap.lookup (BlockedAddrs id maccPerms.reverse) htlctypes.ModuleName = some true :=
  C11_htlc_escrow_account_blocked id maccPerms.reverse (List.reverse_perm maccPerms)
    (by decide)

/-- C12, as stated, fails: with module names as their own addresses, the address of the
distribution module account is a key of the map `BlockedAddrs` returns, although the
distribution module is in `allowedReceivingModAcc`. -/
theorem C12_blockedAddrs_keys_refuted :
    ¬ (∀ a, a ∈ GoMap.keys (BlockedAddrs id maccPerms) ↔
        ∃ acc, acc ∈ GoMap.keys maccPerms ∧ acc ∉ GoMap.keys allowedReceivingModAcc ∧
          id acc = a) := by
  intro h
  obtain ⟨acc, _, hnot, hid⟩ := (h distrtypes.ModuleName).1 (by decide)
  have hacc : acc = distrtypes.ModuleName := hid
  rw [hacc] at hnot
  exact hnot (by decide)

/-- C12, amended: assuming distinct module names of `maccPerms` have distinct addresses, in
the map `BlockedAddrs` returns an address is mapped to `true` if and only if it is the
address of a module account of `maccPerms` that is not in `allowedReceivingModAcc`; the keys
of the map are the addresses of all module accounts of `maccPerms`, and the address of the
distribution module account is mapped to `false`. -/
theorem C12_blockedAddrs_true_iff (NewModuleAddress : String → String)
    (order : List (String × List String)) (hperm : order.Perm maccPerms)
    (hinj : ∀ x ∈ GoMap.keys maccPerms, ∀ y ∈ GoMap.keys maccPerms,
      NewModuleAddress x = NewModuleAddress y → x = y) :
    (∀ a, GoMap.lookup (BlockedAddrs NewModuleAddress order) a = some true ↔
      ∃ acc, acc ∈ GoMap.keys maccPerms ∧ acc ∉ GoMap.keys allowedReceivingModAcc ∧
        NewModuleAddress acc = a) ∧
    (∀ a, a ∈ GoMap.keys (BlockedAddrs NewModuleAddress order) ↔
      ∃ acc, acc ∈ GoMap.keys maccPerms ∧ NewModuleAddress acc = a) ∧
    GoMap.lookup (BlockedAddrs NewModuleAddress order)
      (NewModuleAddress distrtypes.ModuleName) = some false := by
  have hkeys : ∀ e : String × List String, e ∈ order → e.1 ∈ GoMap.keys maccPerms :=
    fun e he => List.mem_map_of_mem Prod.fst (hperm.mem_iff.1 he)
  have hentry : ∀ acc, acc ∈ GoMap.keys maccPerms → ∃ e ∈ order, e.1 = acc := by
    intro acc hacc
    obtain ⟨e, he, hfst⟩ := List.mem_map.1 hacc
    exact ⟨e, hperm.mem_iff.2 he, hfst⟩
  have hallowed : ∀ acc, acc ∉ GoMap.keys allowedReceivingModAcc ↔
      acc ≠ distrtypes.ModuleName := by
    intro acc
    simp [GoMap.keys, allowedReceivingModAcc]
  -- the value of an assigned address
  have hval : ∀ acc, acc ∈ GoMap.keys maccPerms →
      GoMap.lookup (BlockedAddrs NewModuleAddress order) (NewModuleAddress acc)
        = some (!allowedReceivingModAcc.index acc) := by
    intro acc hacc
    obtain ⟨e, he, hfst⟩ := hentry acc hacc
    obtain ⟨e2, he2, hfe2, hv⟩ :=
      lookup_foldl_store_of_mem (fun e : String × List String => NewModuleAddress e.1)
        (fun e => !allowedReceivingModAcc.index e.1) order GoMap.empty
        (NewModuleAddress acc) ⟨e, he, congrArg NewModuleAddress hfst⟩
    have : e2.1 = acc := hinj _ (hkeys e2 he2) _ hacc hfe2
    unfold BlockedAddrs
    rw [hv, this]
  -- an address that is a key was assigned
  have hsome : ∀ a v, GoMap.lookup (BlockedAddrs NewModuleAddress order) a = some v →
      ∃ acc, acc ∈ GoMap.keys maccPerms ∧ NewModuleAddress acc = a := by
    intro a v hv
    by_contra hno
    have hnone : ∀ e ∈ order, NewModuleAddress e.1 ≠ a :=
      fun e he hfe => hno ⟨e.1, hkeys e he, hfe⟩
    have := lookup_foldl_store_of_not_mem
      (fun e : String × List String => NewModuleAddress e.1)
      (fun e => !allowedReceivingModAcc.index e.1) order GoMap.empty a hnone
    unfold BlockedAddrs at hv
    rw [this] at hv
    simp [GoMap.empty, GoMap.lookup] at hv
  refine ⟨?_, ?_, ?_⟩
  · intro a
    constructor
    · intro hv
      obtain ⟨acc, hacc, hfa⟩ := hsome a true hv
      refine ⟨acc, hacc, (hallowed acc).2 ?_, hfa⟩
      rw [← hfa, hval acc hacc, allowedReceivingModAcc_index] at hv
      intro heq
      simp [heq] at hv
    · rintro ⟨acc, hacc, hnot, hfa⟩
      rw [← hfa, hval acc hacc, allowedReceivingModAcc_index]
      simp [(hallowed acc).1 hnot]
  · intro a
    rw [GoMap.mem_keys_iff]
    constructor
    · rintro ⟨v, hv⟩
      exact hsome a v hv
    · rintro ⟨acc, hacc, hfa⟩
      exact ⟨_, hfa ▸ hval acc hacc⟩
  · rw [hval _ (by decide), allowedReceivingModAcc_index]
    simp

/-- C12 amended, with module names as their own addresses: the htlc address is mapped to
`true`, the distribution address is a key and is mapped to `false`. -/
theorem C12_blockedAddrs_true_iff_witness :
    GoMap.lookup (BlockedAddrs id maccPerms) htlctypes.ModuleName = some true ∧
    distrtypes.ModuleName ∈ GoMap.keys (BlockedAddrs id maccPerms) ∧
    GoMap.lookup (BlockedAddrs id maccPerms) distrtypes.ModuleName = some false :=
  have h := C12_blockedAddrs_true_iff id maccPerms (List.Perm.refl _)
    (fun _ _ _ _ hxy => hxy)
  ⟨(h.1 htlctypes.ModuleName).2 ⟨htlctypes.ModuleName, by decide, by decide, rfl⟩,
   (h.2.1 distrtypes.ModuleName).2 ⟨distrtypes.ModuleName, by decide, rfl⟩,
   h.2.2⟩

/-- C13: in whatever order the loop visits `maccPerms`, the map `ModuleAccountAddrs` returns
has a key for the address of every module name of `maccPerms`, all twelve of them, maps
every key to `true`, and has no other key. -/
theorem C13_moduleAccountAddrs (NewModuleAddress : String → String)
    (order : List (String × List String)) (hperm : order.Perm maccPerms) :
    (∀ acc ∈ GoMap.keys maccPerms,
      GoMap.lookup (ModuleAccountAddrs NewModuleAddress order) (NewModuleAddress acc)
        = some true) ∧
    (∀ a v, GoMap.lookup (ModuleAccountAddrs NewModuleAddress order) a = some v →
      v = true) ∧
    (∀ a, a ∈ GoMap.keys (ModuleAccountAddrs NewModuleAddress order) ↔
      ∃ acc, acc ∈ GoMap.keys maccPerms ∧ NewModuleAddress acc = a) ∧
    (GoMap.keys maccPerms).length = 12 ∧ (GoMap.keys maccPerms).Nodup := by
  have hkeys : ∀ e : String × List String, e ∈ order → e.1 ∈ GoMap.keys maccPerms :=
    fun e he => List.mem_map_of_mem Prod.fst (hperm.mem_iff.1 he)
  have hval : ∀ acc, acc ∈ GoMap.keys maccPerms →
      GoMap.lookup (ModuleAccountAddrs NewModuleAddress order) (NewModuleAddress acc)
        = some true := by
    intro acc hacc
    obtain ⟨e, he, hfst⟩ := List.mem_map.1 hacc
    obtain ⟨e2, _, _, hv⟩ :=
      lookup_foldl_store_of_mem (fun e : String × List String => NewModuleAddress e.1)
        (fun _ => true) order GoMap.empty
        (NewModuleAddress acc) ⟨e, hperm.mem_iff.2 he, congrArg NewModuleAddress hfst⟩
    exact hv
  have hsome : ∀ a v, GoMap.lookup (ModuleAccountAddrs NewModuleAddress order) a = some v →
      ∃ acc, acc ∈ GoMap.keys maccPerms ∧ NewModuleAddress acc = a := by
    intro a v hv
    by_contra hno
    have hnone : ∀ e ∈ order, NewModuleAddress e.1 ≠ a :=
      fun e he hfe => hno ⟨e.1, hkeys e he, hfe⟩
    have := lookup_foldl_store_of_not_mem
      (fun e : String × List String => NewModuleAddress e.1)
      (fun _ => true) order GoMap.empty a hnone
    unfold ModuleAccountAddrs at hv
    rw [this] at hv
    simp [GoMap.empty, GoMap.lookup] at hv
  refine ⟨hval, ?_, ?_, rfl, maccPerms_keys_nodup⟩
  · intro a v hv
    obtain ⟨acc, hacc, hfa⟩ := hsome a v hv
    rw [← hfa, hval acc hacc] at hv
    exact (Option.some.inj hv).symm
  · intro a
    rw [GoMap.mem_keys_iff]
    constructor
    · rintro ⟨v, hv⟩
      exact hsome a v hv
    · rintro ⟨acc, hacc, hfa⟩
      exact ⟨_, hfa ▸ hval acc hacc⟩

/-- C13 with module names as their own addresses and the loop visiting `maccPerms` in
reverse order: the htlc address is mapped to `true`, and the name `bank`, which is not a key
of `maccPerms`, is not a key of the result. -/
theorem C13_moduleAccountAddrs_witness :
    GoMap.lookup (ModuleAccountAddrs id maccPerms.reverse) htlctypes.ModuleName
      = some true ∧
    "bank" ∉ GoMap.keys (ModuleAccountAddrs id maccPerms.reverse) :=
  have h := C13_moduleAccountAddrs id maccPerms.reverse (List.reverse_perm maccPerms)
  ⟨h.1 htlctypes.ModuleName (by decide),
   fun hmem => by
    obtain ⟨acc, hacc, hid⟩ := (h.2.2.1 "bank").1 hmem
    have hacc2 : acc = "bank" := hid
    rw [hacc2] at hacc
    exact absurd hacc (by decide)⟩

/-- C14: in whatever order the loop visits `maccPerms`, the map `GetMaccPerms` returns has
exactly the keys of `maccPerms`, maps each key to the same permission list, and the variable
`maccPerms` has the same value after the call. -/
theorem C14_getMaccPerms_copy (order : List (String × List String))
    (hperm : order.Perm maccPerms) :
    (∀ k, k ∈ GoMap.keys (GetMaccPerms maccPerms order).1 ↔ k ∈ GoMap.keys maccPerms) ∧
    (∀ k, GoMap.lookup (GetMaccPerms maccPerms order).1 k = GoMap.lookup maccPerms k) ∧
    (GetMaccPerms maccPerms order).2 = maccPerms := by
  have hlook : ∀ k, GoMap.lookup (GetMaccPerms maccPerms order).1 k
      = GoMap.lookup maccPerms k := by
    intro k
    unfold GetMaccPerms
    rw [GetMaccPerms_foldl]
    by_cases hk : k ∈ GoMap.keys maccPerms
    · obtain ⟨e, he, hfst⟩ := List.mem_map.1 hk
      obtain ⟨e2, he2, hfe2, hv⟩ :=
        lookup_foldl_store_of_mem (fun e : String × List String => e.1)
          (fun e => e.2) order GoMap.empty k ⟨e, hperm.mem_iff.2 he, hfst⟩
      have hfe3 : e2.1 = k := hfe2
      have hmem : (k, e2.2) ∈ maccPerms := by
        rw [← hfe3]
        exact hperm.mem_iff.1 he2
      rw [GoMap.lookup_of_mem maccPerms maccPerms_keys_nodup k e2.2 hmem]
      exact hv
    · have hnone : ∀ e ∈ order, e.1 ≠ k := by
        intro e he hfe
        exact hk (hfe ▸ List.mem_map_of_mem Prod.fst (hperm.mem_iff.1 he))
      have h1 := lookup_foldl_store_of_not_mem (fun e : String × List String => e.1)
        (fun e => e.2) order GoMap.empty k hnone
      have h2 : GoMap.lookup maccPerms k = none := by
        cases hl : GoMap.lookup maccPerms k with
        | none => rfl
        | some v => exact absurd ((GoMap.mem_keys_iff maccPerms k).2 ⟨v, hl⟩) hk
      rw [h2]
      exact h1
  refine ⟨?_, hlook, ?_⟩
  · intro k
    rw [GoMap.mem_keys_iff, GoMap.mem_keys_iff, hlook]
  · unfold GetMaccPerms
    rw [GetMaccPerms_foldl]

/-- C14 with the loop visiting `maccPerms` in reverse order: the copy holds the permissions
of the gov module and of the htlc module, and the variable is unchanged. -/
theorem C14_getMaccPerms_copy_witness :
    GoMap.lookup (GetMaccPerms maccPerms maccPerms.reverse).1 govtypes.ModuleName
      = some [authtypes.Burner] ∧
    GoMap.lookup (GetMaccPerms maccPerms maccPerms.reverse).1 htlctypes.ModuleName
      = some [] ∧
    (GetMaccPerms maccPerms maccPerms.reverse).2 = maccPerms :=
  have h := C14_getMaccPerms_copy maccPerms.reverse (List.reverse_perm maccPerms)
  ⟨(h.2.1 govtypes.ModuleName).trans (by decide),
   (h.2.1 htlctypes.ModuleName).trans (by decide), h.2.2⟩

/-! ### The create command and the order of the checks -/

/-- The acceptance condition of `MsgCreateHTLC.ValidateBasic`, in terms of the checks of
the hash lock. -/
theorem create_validateBasic_eq_none_iff (msg : MsgCreateHTLC) :
    msg.ValidateBasic = none ↔
      (msg.Sender.length ≠ 0 ∧ msg.Receiver.length ≠ 0 ∧
        msg.ReceiverOnOtherChain.length ≤ 32 ∧ 0 < msg.OutAmount.Amount ∧
        ValidateSecretHashLock msg.SecretHashLock = none ∧
        50 ≤ msg.TimeLock ∧ msg.TimeLock ≤ 25480) := by
  unfold MsgCreateHTLC.ValidateBasic Coin.IsPositive MaxLengthForAddressOnOtherChain
    MinTimeLock MaxTimeLock
  by_cases hs : msg.Sender.length = 0
  · simp [hs]
  by_cases hr : msg.Receiver.length = 0
  · simp [hs, hr]
  by_cases hc : msg.ReceiverOnOtherChain.length > 32
  · have hc2 : ¬ msg.ReceiverOnOtherChain.length ≤ 32 := by omega
    simp [hs, hr, hc, hc2]
  have hc2 : msg.ReceiverOnOtherChain.length ≤ 32 := by omega
  by_cases ha : 0 < msg.OutAmount.Amount
  · cases h : ValidateSecretHashLock msg.SecretHashLock
    · by_cases ht : msg.TimeLock < 50 ∨ msg.TimeLock > 25480
      · have ht2 : ¬ (50 ≤ msg.TimeLock ∧ msg.TimeLock ≤ 25480) := by omega
        simp [hs, hr, hc, hc2, ha, ht, ht2]
      · have ht2 : 50 ≤ msg.TimeLock ∧ msg.TimeLock ≤ 25480 := by omega
        simp [hs, hr, hc, hc2, ha, ht, ht2]
    · simp [hs, hr, hc, ha]
  · simp [hs, hr, hc, ha]

/-- The conversion `uint64(x)` of a non-negative `int64` keeps its value, that of a negative
one gives `2^64 + x`. -/
theorem uint64_cases (x : Int) (hlo : -(2 : Int) ^ 63 ≤ x) (hhi : x < (2 : Int) ^ 63) :
    (0 ≤ x → (uint64 x : Int) = x) ∧ (x < 0 → (uint64 x : Int) = 2 ^ 64 + x) := by
  unfold uint64
  constructor <;> intro h <;> omega

/-- C15: in the create command, whose collaborators have succeeded, every signed 64-bit
value of `--time-lock` below 50 (negative ones included) or above 25480 gives a message
that fails `ValidateBasic`, and the command returns the validation error without sending;
every value between 50 and 25480, the other fields being valid, gives a message that
passes, and the command sends it. -/
theorem C15_create_command_timeLock_range (env : CliEnv) (flags : Flags)
    (sender receiver : AccAddress) (receiverOnOtherChain : List Nat) (coin : Coin)
    (h1 : env.GetFromAddress = .ok sender)
    (h2 : env.AccAddressFromBech32 flags.receiver = .ok receiver)
    (h3 : DecodeString flags.receiverOnOtherChain = .ok receiverOnOtherChain)
    (h4 : env.ParseCoin flags.amount = .ok coin)
    (hlo : -(2 : Int) ^ 63 ≤ flags.timeLock) (hhi : flags.timeLock < (2 : Int) ^ 63) :
    ((flags.timeLock < 50 ∨ 25480 < flags.timeLock) →
      (NewMsgCreateHTLC sender receiver receiverOnOtherChain coin (uint64 flags.inAmount)
        flags.hashLock (uint64 flags.timestamp) (uint64 flags.timeLock)).ValidateBasic
        ≠ none ∧
      ∃ err, GetCmdCreateHtlc.RunE env flags
        = { err := some (.validation err), sent := [] }) ∧
    (50 ≤ flags.timeLock → flags.timeLock ≤ 25480 →
      sender.length ≠ 0 → receiver.length ≠ 0 → receiverOnOtherChain.length ≤ 32 →
      0 < coin.Amount → DecodesTo32 flags.hashLock →
      (NewMsgCreateHTLC sender receiver receiverOnOtherChain coin (uint64 flags.inAmount)
        flags.hashLock (uint64 flags.timestamp) (uint64 flags.timeLock)).ValidateBasic
        = none ∧
      (GetCmdCreateHtlc.RunE env flags).sent
        = [[Msg.create (NewMsgCreateHTLC sender receiver receiverOnOtherChain coin
            (uint64 flags.inAmount) flags.hashLock (uint64 flags.timestamp)
            (uint64 flags.timeLock))]]) := by
  have hu := uint64_cases flags.timeLock hlo hhi
  constructor
  · intro ht
    have hbad : (NewMsgCreateHTLC sender receiver receiverOnOtherChain coin
        (uint64 flags.inAmount) flags.hashLock (uint64 flags.timestamp)
        (uint64 flags.timeLock)).ValidateBasic ≠ none := by
      intro hok
      have hc := (create_validateBasic_eq_none_iff _).1 hok
      have h50 : 50 ≤ uint64 flags.timeLock := hc.2.2.2.2.2.1
      have h25480 : uint64 flags.timeLock ≤ 25480 := hc.2.2.2.2.2.2
      by_cases hneg : flags.timeLock < 0
      · have := hu.2 hneg
        omega
      · have := hu.1 (by omega)
        omega
    refine ⟨hbad, ?_⟩
    cases hv : (NewMsgCreateHTLC sender receiver receiverOnOtherChain coin
        (uint64 flags.inAmount) flags.hashLock (uint64 flags.timestamp)
        (uint64 flags.timeLock)).ValidateBasic with
    | none => exact absurd hv hbad
    | some err =>
      refine ⟨err, ?_⟩
      unfold GetCmdCreateHtlc.RunE
      simp only [h1, h2, h3, h4, Msg.ValidateBasic, hv]
  · intro ht1 ht2 hs hr hc ha hh
    have hval := hu.1 (by omega)
    have hok : (NewMsgCreateHTLC sender receiver receiverOnOtherChain coin
        (uint64 flags.inAmount) flags.hashLock (uint64 flags.timestamp)
        (uint64 flags.timeLock)).ValidateBasic = none := by
      rw [create_validateBasic_eq_none_iff]
      refine ⟨hs, hr, hc, ha, (ValidateSecretHashLock_eq_none_iff _).2 hh, ?_, ?_⟩
      · show 50 ≤ uint64 flags.timeLock
        omega
      · show uint64 flags.timeLock ≤ 25480
        omega
    refine ⟨hok, ?_⟩
    unfold GetCmdCreateHtlc.RunE
    simp only [h1, h2, h3, h4, Msg.ValidateBasic, hok]

/-- C15 at concrete runs of the create command: the time locks 49, -1 and 25481 are
rejected without sending, the time lock 50 is sent. -/
theorem C15_create_command_timeLock_range_witness :
    (∃ err, GetCmdCreateHtlc.RunE sampleEnv (sampleFlags 49)
      = { err := some (.validation err), sent := [] }) ∧
    (∃ err, GetCmdCreateHtlc.RunE sampleEnv (sampleFlags (-1))
      = { err := some (.validation err), sent := [] }) ∧
    (∃ err, GetCmdCreateHtlc.RunE sampleEnv (sampleFlags 25481)
      = { err := some (.validation err), sent := [] }) ∧
    (GetCmdCreateHtlc.RunE sampleEnv (sampleFlags 50)).sent
      = [[Msg.create (sampleCreate 50)]] :=
  ⟨((C15_create_command_timeLock_range sampleEnv (sampleFlags 49) sampleAddr [4, 5, 6] [7]
      sampleCoin rfl rfl rfl rfl (by decide) (by decide)).1 (by decide)).2,
   ((C15_create_command_timeLock_range sampleEnv (sampleFlags (-1)) sampleAddr [4, 5, 6] [7]
      sampleCoin rfl rfl rfl rfl (by decide) (by decide)).1 (by decide)).2,
   ((C15_create_command_timeLock_range sampleEnv (sampleFlags 25481) sampleAddr [4, 5, 6]
      [7] sampleCoin rfl rfl rfl rfl (by decide) (by decide)).1 (by decide)).2,
   ((C15_create_command_timeLock_range sampleEnv (sampleFlags 50) sampleAddr [4, 5, 6] [7]
      sampleCoin rfl rfl rfl rfl (by decide) (by decide)).2 (by decide) (by decide)
      (by decide) (by decide) (by decide) (by decide) decodesTo32_hex64_a).2⟩

/-- C16: two create messages that differ only in `InAmount` and `Timestamp` get the same
result from `ValidateBasic`; and when the other fields are valid, the message with
`InAmount` 0 and `Timestamp` 0 is accepted. -/
theorem C16_create_validation_ignores_inAmount_timestamp (m1 m2 : MsgCreateHTLC)
    (hSender : m1.Sender = m2.Sender) (hReceiver : m1.Receiver = m2.Receiver)
    (hOther : m1.ReceiverOnOtherChain = m2.ReceiverOnOtherChain)
    (hOut : m1.OutAmount = m2.OutAmount) (hLock : m1.SecretHashLock = m2.SecretHashLock)
    (hTime : m1.TimeLock = m2.TimeLock) :
    m1.ValidateBasic = m2.ValidateBasic ∧
    (m1.Sender.length ≠ 0 → m1.Receiver.length ≠ 0 →
      m1.ReceiverOnOtherChain.length ≤ 32 → 0 < m1.OutAmount.Amount →
      DecodesTo32 m1.SecretHashLock → 50 ≤ m1.TimeLock → m1.TimeLock ≤ 25480 →
      MsgCreateHTLC.ValidateBasic { m1 with InAmount := 0, Timestamp := 0 } = none) := by
  constructor
  · unfold MsgCreateHTLC.ValidateBasic
    rw [hSender, hReceiver, hOther, hOut, hLock, hTime]
  · intro hs hr hc ha hh ht1 ht2
    rw [create_validateBasic_eq_none_iff]
    exact ⟨hs, hr, hc, ha, (ValidateSecretHashLock_eq_none_iff _).2 hh, ht1, ht2⟩

/-- C16 at concrete messages: changing `InAmount` and `Timestamp` of a valid message and of
an invalid one changes nothing, and zero values are accepted. -/
theorem C16_create_validation_ignores_inAmount_timestamp_witness :
    (sampleCreate 50).ValidateBasic
      = MsgCreateHTLC.ValidateBasic
          { sampleCreate 50 with InAmount := 18446744073709551615, Timestamp := 7 } ∧
    (sampleCreate 49).ValidateBasic
      = MsgCreateHTLC.ValidateBasic { sampleCreate 49 with InAmount := 5, Timestamp := 7 } ∧
    MsgCreateHTLC.ValidateBasic { sampleCreate 50 with InAmount := 0, Timestamp := 0 }
      = none :=
  ⟨(C16_create_validation_ignores_inAmount_timestamp (sampleCreate 50)
      { sampleCreate 50 with InAmount := 18446744073709551615, Timestamp := 7 }
      rfl rfl rfl rfl rfl rfl).1,
   (C16_create_validation_ignores_inAmount_timestamp (sampleCreate 49)
      { sampleCreate 49 with InAmount := 5, Timestamp := 7 } rfl rfl rfl rfl rfl rfl).1,
   (C16_create_validation_ignores_inAmount_timestamp (sampleCreate 50) (sampleCreate 50)
      rfl rfl rfl rfl rfl rfl).2 (by decide) (by decide) (by decide) (by decide)
      decodesTo32_hex64_a (by decide) (by decide)⟩

/-- C17: `ValidateBasic` of a create message returns the error of the first violated check
in the order Sender, Receiver, ReceiverOnOtherChain length, OutAmount, SecretHashLock,
TimeLock, and nothing when no check is violated; a message with an empty sender and a zero
out amount fails with `ErrInvalidAddress`, and one with a zero out amount and a malformed
hash lock, its addresses being valid, fails with `ErrInvalidAmount`. -/
theorem C17_create_reports_first_violated_check (msg : MsgCreateHTLC) :
    msg.ValidateBasic = (firstViolatedCheck msg).map CreateCheck.error ∧
    (msg.Sender.length = 0 → msg.OutAmount.Amount = 0 →
      msg.ValidateBasic = some .ErrInvalidAddress) ∧
    (msg.Sender.length ≠ 0 → msg.Receiver.length ≠ 0 →
      msg.ReceiverOnOtherChain.length ≤ 32 → msg.OutAmount.Amount = 0 →
      ¬ DecodesTo32 msg.SecretHashLock →
      msg.ValidateBasic = some .ErrInvalidAmount) := by
  refine ⟨?_, ?_, ?_⟩
  · unfold firstViolatedCheck CreateCheck.order MsgCreateHTLC.ValidateBasic
    by_cases hs : msg.Sender.length = 0
    · simp [CreateCheck.violated, CreateCheck.error, hs]
    by_cases hr : msg.Receiver.length = 0
    · simp [CreateCheck.violated, CreateCheck.error, hs, hr]
    by_cases hc : msg.ReceiverOnOtherChain.length > MaxLengthForAddressOnOtherChain
    · simp [CreateCheck.violated, CreateCheck.error, hs, hr, hc]
    cases ha : msg.OutAmount.IsPositive
    · simp [CreateCheck.violated, CreateCheck.error, hs, hr, hc, ha]
    cases hh : ValidateSecretHashLock msg.SecretHashLock
    · by_cases ht : msg.TimeLock < MinTimeLock ∨ msg.TimeLock > MaxTimeLock
      · simp [CreateCheck.violated, CreateCheck.error, hs, hr, hc, ha, hh, ht]
      · simp [CreateCheck.violated, CreateCheck.error, hs, hr, hc, ha, hh, ht]
    · simp [CreateCheck.violated, CreateCheck.error, hs, hr, hc, ha, hh]
  · intro hs _
    unfold MsgCreateHTLC.ValidateBasic
    simp only [hs, if_true]
  · intro hs hr hc ha _
    have hc2 : ¬ msg.ReceiverOnOtherChain.length > 32 := by omega
    unfold MsgCreateHTLC.ValidateBasic Coin.IsPositive MaxLengthForAddressOnOtherChain
    simp [hs, hr, hc2, ha]

/-- C17 at concrete messages: an empty sender with a zero amount gives
`ErrInvalidAddress`; a zero amount with the hash lock `x` gives `ErrInvalidAmount`; the
first violated check of the latter is the one of the out amount. -/
theorem C17_create_reports_first_violated_check_witness :
    (NewMsgCreateHTLC [] [4, 5, 6] [7] ⟨[105], 0⟩ 0 (hex64 97) 0 50).ValidateBasic
      = some .ErrInvalidAddress ∧
    (NewMsgCreateHTLC sampleAddr [4, 5, 6] [7] ⟨[105], 0⟩ 0 [120] 0 50).ValidateBasic
      = some .ErrInvalidAmount ∧
    firstViolatedCheck (NewMsgCreateHTLC sampleAddr [4, 5, 6] [7] ⟨[105], 0⟩ 0 [120] 0 50)
      = some .OutAmount :=
  ⟨(C17_create_reports_first_violated_check
      (NewMsgCreateHTLC [] [4, 5, 6] [7] ⟨[105], 0⟩ 0 (hex64 97) 0 50)).2.1 rfl rfl,
   (C17_create_reports_first_violated_check
      (NewMsgCreateHTLC sampleAddr [4, 5, 6] [7] ⟨[105], 0⟩ 0 [120] 0 50)).2.2
      (by decide) (by decide) (by decide) rfl (by decide),
   by decide⟩

/-- The acceptance condition of `MsgClaimHTLC.ValidateBasic`. -/
theorem claim_validateBasic_eq_none_iff (msg : MsgClaimHTLC) :
    msg.ValidateBasic = none ↔
      (msg.Sender.length ≠ 0 ∧ DecodesTo32 msg.Secret ∧ DecodesTo32 msg.SecretHashLock) := by
  rw [← ValidateSecretHashLock_eq_none_iff msg.SecretHashLock,
    ← ValidateSecret_eq_none_iff msg.Secret]
  unfold MsgClaimHTLC.ValidateBasic
  by_cases hs : msg.Sender.length = 0
  · simp [hs]
  · cases h1 : ValidateSecret msg.Secret <;>
      cases h2 : ValidateSecretHashLock msg.SecretHashLock <;> simp [hs]

/-- C20: for every sender and strings `a` and `b`, the claim message with secret `a` and
hash lock `b` passes `ValidateBasic` if and only if the one with secret `b` and hash lock
`a` does. -/
theorem C20_claim_validation_symmetric (sender : AccAddress) (a b : GoString) :
    (NewMsgClaimHTLC sender a b).ValidateBasic = none ↔
      (NewMsgClaimHTLC sender b a).ValidateBasic = none := by
  rw [claim_validateBasic_eq_none_iff, claim_validateBasic_eq_none_iff]
  unfold NewMsgClaimHTLC
  constructor
  · rintro ⟨hs, ha, hb⟩
    exact ⟨hs, hb, ha⟩
  · rintro ⟨hs, hb, ha⟩
    exact ⟨hs, ha, hb⟩

/-! ### Hex strings -/

/-- `fromHexChar` succeeds exactly on the hexadecimal digits. -/
theorem fromHexChar_eq_none_iff (c : Nat) : fromHexChar c = none ↔ isHexDigit c = false := by
  unfold fromHexChar isHexDigit
  split_ifs with h1 h2 h3 <;> simp <;> omega

/-- A decoded slice has half the length of its source. -/
theorem hexDecode_length : ∀ (s : GoString) (bs : List Nat),
    hexDecode s = .ok bs → 2 * bs.length = s.length
  | [], bs, h => by
    simp only [hexDecode, Except.ok.injEq] at h
    subst h
    rfl
  | [p], bs, h => by
    unfold hexDecode at h
    split at h <;> cases h
  | p :: q :: rest, bs, h => by
    unfold hexDecode at h
    split at h
    · cases h
    · split at h
      · cases h
      · split at h
        · cases h
        · rename_i bs2 hrest
          simp only [Except.ok.injEq] at h
          subst h
          have := hexDecode_length rest bs2 hrest
          simp only [List.length_cons]
          omega

/-- A source that decodes consists of hexadecimal digits. -/
theorem hexDecode_all_hex : ∀ (s : GoString) (bs : List Nat),
    hexDecode s = .ok bs → ∀ c ∈ s, isHexDigit c = true
  | [], _, _ => by simp
  | [p], bs, h => by
    unfold hexDecode at h
    split at h <;> cases h
  | p :: q :: rest, bs, h => by
    unfold hexDecode at h
    split at h
    · cases h
    · rename_i a hp
      split at h
      · cases h
      · rename_i b hq
        split at h
        · cases h
        · rename_i bs2 hrest
          have ih := hexDecode_all_hex rest bs2 hrest
          have hp2 : isHexDigit p = true := by
            cases hd : isHexDigit p
            · rw [(fromHexChar_eq_none_iff p).2 hd] at hp
              cases hp
            · rfl
          have hq2 : isHexDigit q = true := by
            cases hd : isHexDigit q
            · rw [(fromHexChar_eq_none_iff q).2 hd] at hq
              cases hq
            · rfl
          intro c hc
          rcases List.mem_cons.1 hc with rfl | hc
          · exact hp2
          rcases List.mem_cons.1 hc with rfl | hc
          · exact hq2
          · exact ih c hc

/-- A source of even length that consists of hexadecimal digits decodes. -/
theorem hexDecode_ok_of_all_hex : ∀ (s : GoString), s.length % 2 = 0 →
    (∀ c ∈ s, isHexDigit c = true) → ∃ bs, hexDecode s = .ok bs
  | [], _, _ => ⟨[], rfl⟩
  | [p], hlen, _ => by simp at hlen
  | p :: q :: rest, hlen, hall => by
    have hlen2 : rest.length % 2 = 0 := by
      simp only [List.length_cons] at hlen
      omega
    obtain ⟨bs2, hrest⟩ := hexDecode_ok_of_all_hex rest hlen2
      (fun c hc => hall c (List.mem_cons_of_mem _ (List.mem_cons_of_mem _ hc)))
    have hp : isHexDigit p = true := hall p (List.mem_cons_self _ _)
    have hq : isHexDigit q = true :=
      hall q (List.mem_cons_of_mem _ (List.mem_cons_self _ _))
    cases hfp : fromHexChar p with
    | none =>
      rw [(fromHexChar_eq_none_iff p).1 hfp] at hp
      cases hp
    | some a =>
      cases hfq : fromHexChar q with
      | none =>
        rw [(fromHexChar_eq_none_iff q).1 hfq] at hq
        cases hq
      | some b =>
        refine ⟨((a <<< 4) ||| b) :: bs2, ?_⟩
        unfold hexDecode
        simp only [hfp, hfq, hrest]

/-- The strings that decode to exactly 32 bytes are those of 64 hexadecimal digits. -/
theorem decodesTo32_iff (s : GoString) :
    DecodesTo32 s ↔ (s.length = 64 ∧ ∀ c ∈ s, isHexDigit c = true) := by
  unfold DecodesTo32 DecodeString
  constructor
  · rintro ⟨bs, hbs, hlen⟩
    have := hexDecode_length s bs hbs
    exact ⟨by omega, hexDecode_all_hex s bs hbs⟩
  · rintro ⟨hlen, hall⟩
    obtain ⟨bs, hbs⟩ := hexDecode_ok_of_all_hex s (by omega) hall
    have := hexDecode_length s bs hbs
    exact ⟨bs, hbs, by omega⟩

/-- C18: `ValidateSecretHashLock` and `ValidateSecret` accept exactly the strings of length
64 all of whose bytes are hexadecimal digits; in particular they reject the empty string,
every string of odd length and every string with a byte that is not a hexadecimal digit. -/
theorem C18_hex_validators_accept_exactly_64_hex_digits (s : GoString) :
    (ValidateSecretHashLock s = none ↔ (s.length = 64 ∧ ∀ c ∈ s, isHexDigit c = true)) ∧
    (ValidateSecret s = none ↔ (s.length = 64 ∧ ∀ c ∈ s, isHexDigit c = true)) ∧
    (s.length ≠ 64 → ValidateSecretHashLock s ≠ none ∧ ValidateSecret s ≠ none) ∧
    (∀ c ∈ s, isHexDigit c = false →
      ValidateSecretHashLock s ≠ none ∧ ValidateSecret s ≠ none) := by
  have h1 := (ValidateSecretHashLock_eq_none_iff s).trans (decodesTo32_iff s)
  have h2 := (ValidateSecret_eq_none_iff s).trans (decodesTo32_iff s)
  refine ⟨h1, h2, ?_, ?_⟩
  · intro hlen
    exact ⟨fun h => hlen (h1.1 h).1, fun h => hlen (h2.1 h).1⟩
  · intro c hc hd
    constructor
    · intro h
      rw [(h1.1 h).2 c hc] at hd
      cases hd
    · intro h
      rw [(h2.1 h).2 c hc] at hd
      cases hd

/-- C18 at concrete strings: sixty-four times `a` is accepted by both validators; the empty
string, sixty-three times `a` and sixty-four times `g` are rejected. -/
theorem C18_hex_validators_accept_exactly_64_hex_digits_witness :
    ValidateSecretHashLock (hex64 97) = none ∧ ValidateSecret (hex64 97) = none ∧
    ValidateSecretHashLock [] ≠ none ∧
    ValidateSecret (List.replicate 63 97) ≠ none ∧
    ValidateSecretHashLock (hex64 103) ≠ none :=
  ⟨(C18_hex_validators_accept_exactly_64_hex_digits (hex64 97)).1.2 (by decide),
   (C18_hex_validators_accept_exactly_64_hex_digits (hex64 97)).2.1.2 (by decide),
   ((C18_hex_validators_accept_exactly_64_hex_digits []).2.2.1 (by decide)).1,
   ((C18_hex_validators_accept_exactly_64_hex_digits (List.replicate 63 97)).2.2.1
      (by decide)).2,
   ((C18_hex_validators_accept_exactly_64_hex_digits (hex64 103)).2.2.2 103 (by decide)
      (by decide)).1⟩

/-- A letter and its lower-cased form have the same hex value. -/
theorem fromHexChar_toLowerByte (c : Nat) : fromHexChar (toLowerByte c) = fromHexChar c := by
  unfold fromHexChar toLowerByte
  split_ifs <;> first | rfl | (exfalso; omega)

/-- A string and its lower-cased form decode to the same bytes, when either decodes. -/
theorem hexDecode_toLower : ∀ (s : GoString),
    (hexDecode (toLower s)).toOption = (hexDecode s).toOption
  | [] => rfl
  | [p] => by
    simp only [toLower, List.map_cons, List.map_nil, hexDecode, fromHexChar_toLowerByte]
    cases fromHexChar p <;> rfl
  | p :: q :: rest => by
    have ih := hexDecode_toLower rest
    simp only [toLower, List.map_cons, hexDecode, fromHexChar_toLowerByte]
    cases fromHexChar p with
    | none => rfl
    | some a =>
      cases fromHexChar q with
      | none => rfl
      | some b =>
        simp only [toLower] at ih
        cases h1 : hexDecode (List.map toLowerByte rest) <;>
          cases h2 : hexDecode rest <;>
          simp only [h1, h2, Except.toOption] at ih ⊢
        · cases ih
        · cases ih
        · cases ih
          rfl

/-- Success of a decoding, read off its option. -/
theorem toOption_eq_some_iff (r : Except HexError (List Nat)) (bs : List Nat) :
    r.toOption = some bs ↔ r = .ok bs := by
  cases r <;> simp [Except.toOption]

/-- The hex digits of a value below 16 have that value. -/
theorem fromHexChar_hexDigit (n : Nat) (h : n < 16) :
    fromHexChar (lowerHexDigit n) = some n ∧ fromHexChar (upperHexDigit n) = some n := by
  unfold fromHexChar lowerHexDigit upperHexDigit
  constructor <;> split_ifs <;>
    first | (exfalso; omega) | (simp; done) | (simp only [Option.some.injEq]; omega)

/-- The two half-bytes of a byte put together give the byte. -/
theorem shift_or_halves (b : Nat) : ((b / 16) <<< 4) ||| (b % 16) = b := by
  have h := Nat.mul_add_lt_is_or (show b % 16 < 2 ^ 4 by omega) (b / 16)
  rw [Nat.shiftLeft_eq, Nat.mul_comm, ← h]
  omega

/-- The lower-case and the upper-case hex encoding of a byte slice decode to it. -/
theorem hexDecode_encode : ∀ (bs : List Nat), (∀ b ∈ bs, b < 256) →
    hexDecode (encodeLower bs) = .ok bs ∧ hexDecode (encodeUpper bs) = .ok bs
  | [], _ => ⟨rfl, rfl⟩
  | b :: bs, hb => by
    have ih := hexDecode_encode bs (fun c hc => hb c (List.mem_cons_of_mem _ hc))
    have hlt : b < 256 := hb b (List.mem_cons_self _ _)
    have hhi := fromHexChar_hexDigit (b / 16) (by omega)
    have hlo := fromHexChar_hexDigit (b % 16) (by omega)
    constructor
    · simp only [encodeLower, hexDecode, hhi.1, hlo.1, ih.1, shift_or_halves]
    · simp only [encodeUpper, hexDecode, hhi.2, hlo.2, ih.2, shift_or_halves]

/-- The two encodings of a byte slice whose hex encoding has a letter differ. -/
theorem encodeLower_ne_encodeUpper : ∀ (bs : List Nat), hasHexLetter bs = true →
    encodeLower bs ≠ encodeUpper bs
  | [], h => by simp [hasHexLetter] at h
  | b :: bs, h => by
    intro heq
    simp only [encodeLower, encodeUpper, List.cons.injEq] at heq
    obtain ⟨h1, h2, h3⟩ := heq
    simp only [hasHexLetter, List.any_cons, Bool.or_eq_true, decide_eq_true_eq] at h
    rcases h with (hhi | hlo) | htail
    · unfold lowerHexDigit upperHexDigit at h1
      split_ifs at h1 <;> omega
    · unfold lowerHexDigit upperHexDigit at h2
      split_ifs at h2 <;> omega
    · exact encodeLower_ne_encodeUpper bs htail h3

/-- C19: `ValidateSecretHashLock` accepts a string if and only if it accepts its lower-cased
form, and the two decode to the same bytes; and every 32-byte digest whose hex encoding has
a letter is denoted by two distinct strings that `ValidateSecretHashLock` accepts. -/
theorem C19_hashLock_validation_case_insensitive (s : GoString) :
    (ValidateSecretHashLock s = none ↔ ValidateSecretHashLock (toLower s) = none) ∧
    (∀ bs, DecodeString s = .ok bs ↔ DecodeString (toLower s) = .ok bs) ∧
    (∀ digest : List Nat, digest.length = 32 → (∀ b ∈ digest, b < 256) →
      hasHexLetter digest = true →
      ∃ s1 s2, s1 ≠ s2 ∧
        ValidateSecretHashLock s1 = none ∧ ValidateSecretHashLock s2 = none ∧
        DecodeString s1 = .ok digest ∧ DecodeString s2 = .ok digest) := by
  have hdec : ∀ bs, DecodeString s = .ok bs ↔ DecodeString (toLower s) = .ok bs := by
    intro bs
    unfold DecodeString
    rw [← toOption_eq_some_iff, ← toOption_eq_some_iff, hexDecode_toLower]
  refine ⟨?_, hdec, ?_⟩
  · rw [ValidateSecretHashLock_eq_none_iff, ValidateSecretHashLock_eq_none_iff]
    unfold DecodesTo32
    constructor
    · rintro ⟨bs, h, hl⟩
      exact ⟨bs, (hdec bs).1 h, hl⟩
    · rintro ⟨bs, h, hl⟩
      exact ⟨bs, (hdec bs).2 h, hl⟩
  · intro digest hlen hbytes hletter
    have henc := hexDecode_encode digest hbytes
    refine ⟨encodeLower digest, encodeUpper digest,
      encodeLower_ne_encodeUpper digest hletter, ?_, ?_, henc.1, henc.2⟩
    · exact (ValidateSecretHashLock_eq_none_iff _).2 ⟨digest, henc.1, hlen⟩
    · exact (ValidateSecretHashLock_eq_none_iff _).2 ⟨digest, henc.2, hlen⟩

/-- C19 at concrete strings: sixty-four times `A` is accepted, as is its lower-cased form,
sixty-four times `a`; and the digest of thirty-two bytes `0xAA` is denoted by two distinct
accepted strings. -/
theorem C19_hashLock_validation_case_insensitive_witness :
    ValidateSecretHashLock (toLower (hex64 65)) = none ∧
    DecodeString (toLower (hex64 65)) = .ok (List.replicate 32 170) ∧
    (∃ s1 s2, s1 ≠ s2 ∧
      ValidateSecretHashLock s1 = none ∧ ValidateSecretHashLock s2 = none ∧
      DecodeString s1 = .ok (List.replicate 32 170) ∧
      DecodeString s2 = .ok (List.replicate 32 170)) :=
  ⟨(C19_hashLock_validation_case_insensitive (hex64 65)).1.1 (by decide),
   ((C19_hashLock_validation_case_insensitive (hex64 65)).2.1 (List.replicate 32 170)).1 rfl,
   (C19_hashLock_validation_case_insensitive []).2.2 (List.replicate 32 170) rfl
     (by decide) (by decide)⟩

/-! ### The informational fields, the required flags, the signers, the token statistics -/

/-- C21: in the create command, whose collaborators have succeeded, the signed 64-bit
values of `--in-amount` and `--timestamp` are carried modulo `2^64`: a non-negative value
`v` as `v`, a negative one as `2^64 + v`; the result of `ValidateBasic` is the one the
message gets with `InAmount` 0 and `Timestamp` 0, and when the other fields are valid the
message passes and is the one sent. -/
theorem C21_create_command_inAmount_timestamp (env : CliEnv) (flags : Flags)
    (sender receiver : AccAddress) (receiverOnOtherChain : List Nat) (coin : Coin)
    (h1 : env.GetFromAddress = .ok sender)
    (h2 : env.AccAddressFromBech32 flags.receiver = .ok receiver)
    (h3 : DecodeString flags.receiverOnOtherChain = .ok receiverOnOtherChain)
    (h4 : env.ParseCoin flags.amount = .ok coin)
    (hInLo : -(2 : Int) ^ 63 ≤ flags.inAmount) (hInHi : flags.inAmount < (2 : Int) ^ 63)
    (hTsLo : -(2 : Int) ^ 63 ≤ flags.timestamp) (hTsHi : flags.timestamp < (2 : Int) ^ 63) :
    (0 ≤ flags.inAmount →
      ((NewMsgCreateHTLC sender receiver receiverOnOtherChain coin (uint64 flags.inAmount)
        flags.hashLock (uint64 flags.timestamp) (uint64 flags.timeLock)).InAmount : Int)
        = flags.inAmount) ∧
    (flags.inAmount < 0 →
      ((NewMsgCreateHTLC sender receiver receiverOnOtherChain coin (uint64 flags.inAmount)
        flags.hashLock (uint64 flags.timestamp) (uint64 flags.timeLock)).InAmount : Int)
        = 2 ^ 64 + flags.inAmount) ∧
    (0 ≤ flags.timestamp →
      ((NewMsgCreateHTLC sender receiver receiverOnOtherChain coin (uint64 flags.inAmount)
        flags.hashLock (uint64 flags.timestamp) (uint64 flags.timeLock)).Timestamp : Int)
        = flags.timestamp) ∧
    (flags.timestamp < 0 →
      ((NewMsgCreateHTLC sender receiver receiverOnOtherChain coin (uint64 flags.inAmount)
        flags.hashLock (uint64 flags.timestamp) (uint64 flags.timeLock)).Timestamp : Int)
        = 2 ^ 64 + flags.timestamp) ∧
    (NewMsgCreateHTLC sender receiver receiverOnOtherChain coin (uint64 flags.inAmount)
        flags.hashLock (uint64 flags.timestamp) (uint64 flags.timeLock)).ValidateBasic
      = (NewMsgCreateHTLC sender receiver receiverOnOtherChain coin 0
        flags.hashLock 0 (uint64 flags.timeLock)).ValidateBasic ∧
    (sender.length ≠ 0 → receiver.length ≠ 0 → receiverOnOtherChain.length ≤ 32 →
      0 < coin.Amount → DecodesTo32 flags.hashLock →
      50 ≤ uint64 flags.timeLock → uint64 flags.timeLock ≤ 25480 →
      (NewMsgCreateHTLC sender receiver receiverOnOtherChain coin (uint64 flags.inAmount)
        flags.hashLock (uint64 flags.timestamp) (uint64 flags.timeLock)).ValidateBasic
        = none ∧
      (GetCmdCreateHtlc.RunE env flags).sent
        = [[Msg.create (NewMsgCreateHTLC sender receiver receiverOnOtherChain coin
            (uint64 flags.inAmount) flags.hashLock (uint64 flags.timestamp)
            (uint64 flags.timeLock))]]) := by
  have hIn := uint64_cases flags.inAmount hInLo hInHi
  have hTs := uint64_cases flags.timestamp hTsLo hTsHi
  refine ⟨hIn.1, hIn.2, hTs.1, hTs.2, rfl, ?_⟩
  intro hs hr hc ha hh ht1 ht2
  have hok : (NewMsgCreateHTLC sender receiver receiverOnOtherChain coin
      (uint64 flags.inAmount) flags.hashLock (uint64 flags.timestamp)
      (uint64 flags.timeLock)).ValidateBasic = none := by
    rw [create_validateBasic_eq_none_iff]
    exact ⟨hs, hr, hc, ha, (ValidateSecretHashLock_eq_none_iff _).2 hh, ht1, ht2⟩
  refine ⟨hok, ?_⟩
  unfold GetCmdCreateHtlc.RunE
  simp only [h1, h2, h3, h4, Msg.ValidateBasic, hok]

/-- C21 at a concrete run of the create command: with `--in-amount` -1 and `--timestamp`
-2 the message sent carries `2^64 - 1` and `2^64 - 2`, and it passes `ValidateBasic`. -/
theorem C21_create_command_inAmount_timestamp_witness :
    (GetCmdCreateHtlc.RunE sampleEnv
        { sampleFlags 50 with inAmount := -1, timestamp := -2 }).sent
      = [[Msg.create (NewMsgCreateHTLC sampleAddr [4, 5, 6] [7] sampleCoin
            18446744073709551615 (hex64 97) 18446744073709551614 50)]] ∧
    (NewMsgCreateHTLC sampleAddr [4, 5, 6] [7] sampleCoin 18446744073709551615 (hex64 97)
      18446744073709551614 50).ValidateBasic = none :=
  have h := (C21_create_command_inAmount_timestamp sampleEnv
      { sampleFlags 50 with inAmount := -1, timestamp := -2 } sampleAddr [4, 5, 6] [7]
      sampleCoin rfl rfl rfl rfl (by decide) (by decide) (by decide) (by decide)).2.2.2.2.2
      (by decide) (by decide) (by decide) (by decide) decodesTo32_hex64_a (by decide)
      (by decide)
  ⟨h.2, h.1⟩

/-- Adding a flag set keeps the flags already defined and adds those of the set. -/
theorem Command.mem_AddFlagSet (cmd : Command) (fs : List String) (name : String) :
    name ∈ (cmd.AddFlagSet fs).Flags ↔ name ∈ cmd.Flags ∨ name ∈ fs := by
  obtain ⟨defined, required⟩ := cmd
  unfold Command.AddFlagSet
  simp only
  induction fs generalizing defined with
  | nil => simp
  | cons f fs ih =>
    rw [List.foldl_cons, ih]
    by_cases hf : f ∈ defined
    · simp only [hf, if_true, List.mem_cons]
      constructor
      · rintro (h | h)
        · exact Or.inl h
        · exact Or.inr (Or.inr h)
      · rintro (h | h | h)
        · exact Or.inl h
        · exact Or.inl (h ▸ hf)
        · exact Or.inr h
    · simp only [hf, if_false, List.mem_append, List.mem_singleton, List.mem_cons]
      tauto

/-- Marking a flag that the command defines and that is not yet marked. -/
theorem Command.MarkFlagRequired_defined (defined required : List String) (name : String)
    (hdef : name ∈ defined) (hnew : name ∉ required) :
    (Command.MarkFlagRequired { Flags := defined, Required := required } name).1
      = { Flags := defined, Required := required ++ [name] } := by
  unfold Command.MarkFlagRequired
  simp only [hdef, hnew, if_true, if_false]

/-- The flags marked by the seven first calls of `MarkFlagRequired`, when the flag set
defines the seven flags of the usage example. -/
theorem GetCmdCreateHtlc_seven_marked (fs : List String)
    (hdef : ∀ f ∈ GetCmdCreateHtlc.exampleFlags, f ∈ fs) :
    GetCmdCreateHtlc fs
      = (Command.MarkFlagRequired
          { Flags := (Command.AddFlagSet { Flags := [], Required := [] } fs).Flags,
            Required := GetCmdCreateHtlc.exampleFlags } FlagSecret).1 := by
  have hmem : ∀ f ∈ GetCmdCreateHtlc.exampleFlags,
      f ∈ (Command.AddFlagSet { Flags := [], Required := [] } fs).Flags :=
    fun f hf => (Command.mem_AddFlagSet _ fs f).2 (Or.inr (hdef f hf))
  have h0 : Command.AddFlagSet { Flags := [], Required := [] } fs
      = { Flags := (Command.AddFlagSet { Flags := [], Required := [] } fs).Flags,
          Required := [] } := rfl
  generalize (Command.AddFlagSet { Flags := [], Required := [] } fs).Flags = defined
    at hmem h0
  have e1 : (Command.MarkFlagRequired { Flags := defined, Required := [] } FlagReceiver).1
      = { Flags := defined, Required := [FlagReceiver] } :=
    Command.MarkFlagRequired_defined defined [] _ (hmem _ (by decide)) (by decide)
  have e2 : (Command.MarkFlagRequired { Flags := defined, Required := [FlagReceiver] }
        FlagReceiverOnOtherChain).1
      = { Flags := defined, Required := [FlagReceiver, FlagReceiverOnOtherChain] } :=
    Command.MarkFlagRequired_defined defined _ _ (hmem _ (by decide)) (by decide)
  have e3 : (Command.MarkFlagRequired
        { Flags := defined, Required := [FlagReceiver, FlagReceiverOnOtherChain] }
        FlagHashLock).1
      = { Flags := defined,
          Required := [FlagReceiver, FlagReceiverOnOtherChain, FlagHashLock] } :=
    Command.MarkFlagRequired_defined defined _ _ (hmem _ (by decide)) (by decide)
  have e4 : (Command.MarkFlagRequired
        { Flags := defined,
          Required := [FlagReceiver, FlagReceiverOnOtherChain, FlagHashLock] }
        FlagInAmount).1
      = { Flags := defined,
          Required := [FlagReceiver, FlagReceiverOnOtherChain, FlagHashLock,
            FlagInAmount] } :=
    Command.MarkFlagRequired_defined defined _ _ (hmem _ (by decide)) (by decide)
  have e5 : (Command.MarkFlagRequired
        { Flags := defined,
          Required := [FlagReceiver, FlagReceiverOnOtherChain, FlagHashLock,
            FlagInAmount] }
        FlagAmount).1
      = { Flags := defined,
          Required := [FlagReceiver, FlagReceiverOnOtherChain, FlagHashLock, FlagInAmount,
            FlagAmount] } :=
    Command.MarkFlagRequired_defined defined _ _ (hmem _ (by decide)) (by decide)
  have e6 : (Command.MarkFlagRequired
        { Flags := defined,
          Required := [FlagReceiver, FlagReceiverOnOtherChain, FlagHashLock, FlagInAmount,
            FlagAmount] }
        FlagTimeLock).1
      = { Flags := defined,
          Required := [FlagReceiver, FlagReceiverOnOtherChain, FlagHashLock, FlagInAmount,
            FlagAmount, FlagTimeLock] } :=
    Command.MarkFlagRequired_defined defined _ _ (hmem _ (by decide)) (by decide)
  have e7 : (Command.MarkFlagRequired
        { Flags := defined,
          Required := [FlagReceiver, FlagReceiverOnOtherChain, FlagHashLock, FlagInAmount,
            FlagAmount, FlagTimeLock] }
        FlagTimestamp).1
      = { Flags := defined, Required := GetCmdCreateHtlc.exampleFlags } :=
    Command.MarkFlagRequired_defined defined _ _ (hmem _ (by decide)) (by decide)
  show (Command.MarkFlagRequired (Command.MarkFlagRequired (Command.MarkFlagRequired
    (Command.MarkFlagRequired (Command.MarkFlagRequired (Command.MarkFlagRequired
    (Command.MarkFlagRequired (Command.MarkFlagRequired
      (Command.AddFlagSet { Flags := [], Required := [] } fs)
      FlagReceiver).1 FlagReceiverOnOtherChain).1 FlagHashLock).1 FlagInAmount).1
      FlagAmount).1 FlagTimeLock).1 FlagTimestamp).1 FlagSecret).1 = _
  rw [h0, e1, e2, e3, e4, e5, e6, e7]

/-- When the flag set of the create command defines the secret flag as well, the eighth
call of `MarkFlagRequired` marks it: the required flags are then the seven flags of the
usage example and the secret flag. -/
theorem GetCmdCreateHtlc_secret_marked_when_defined (fs : List String)
    (hdef : ∀ f ∈ GetCmdCreateHtlc.exampleFlags, f ∈ fs) (hsecret : FlagSecret ∈ fs) :
    (GetCmdCreateHtlc fs).Required = GetCmdCreateHtlc.exampleFlags ++ [FlagSecret] := by
  rw [GetCmdCreateHtlc_seven_marked fs hdef,
    Command.MarkFlagRequired_defined _ GetCmdCreateHtlc.exampleFlags FlagSecret
      ((Command.mem_AddFlagSet _ fs FlagSecret).2 (Or.inr hsecret)) (by decide)]

/-- C23: `GetSigners` of a create, a claim and a refund message is the list of exactly one
address, the sender of the message; for a create message it does not depend on the
receiver, and a receiver other than the sender is not among the signers. -/
theorem C23_getSigners_is_sender (create : MsgCreateHTLC) (claim : MsgClaimHTLC)
    (refund : MsgRefundHTLC) :
    create.GetSigners = [create.Sender] ∧ create.GetSigners.length = 1 ∧
    claim.GetSigners = [claim.Sender] ∧ claim.GetSigners.length = 1 ∧
    refund.GetSigners = [refund.Sender] ∧ refund.GetSigners.length = 1 ∧
    (∀ receiver : AccAddress,
      MsgCreateHTLC.GetSigners { create with Receiver := receiver } = create.GetSigners) ∧
    (create.Receiver ≠ create.Sender → create.Receiver ∉ create.GetSigners) := by
  refine ⟨rfl, rfl, rfl, rfl, rfl, rfl, fun _ => rfl, ?_⟩
  intro hne hmem
  simp only [MsgCreateHTLC.GetSigners, List.mem_singleton] at hmem
  exact hne hmem

/-- C23 at the sample create message: its only signer is the sender, and its receiver is
not a signer. -/
theorem C23_getSigners_is_sender_witness :
    (sampleCreate 50).GetSigners = [sampleAddr] ∧
    (sampleCreate 50).Receiver ∉ (sampleCreate 50).GetSigners :=
  have h := C23_getSigners_is_sender (sampleCreate 50)
    (NewMsgClaimHTLC sampleAddr (hex64 98) (hex64 97)) (NewMsgRefundHTLC sampleAddr (hex64 97))
  ⟨h.1, h.2.2.2.2.2.2.2 (by decide)⟩

/-- When the token-statistic query for an IRIS denomination fails, the handler writes the
error response, goes on with the decoding and writes a second response, whatever the
outcomes of the later calls. -/
theorem tokenStats_query_failure_two_writes (o : TokenStatsOutcomes)
    (hiris : o.isIris = true) (hfail : o.queryTokenStats = false) :
    countWrites (QueryTokenStatsRequestHandlerFn o) = 2 ∧
    ∃ rest, QueryTokenStatsRequestHandlerFn o
      = [.QueryWithData .tokenStats, .WriteErrorResponse StatusInternalServerError,
         .UnmarshalJSON] ++ rest ∧ countWrites rest = 1 := by
  obtain ⟨a, b, c, d, e, f, g, h, i⟩ := o
  simp only at hiris hfail
  subst hiris hfail
  unfold QueryTokenStatsRequestHandlerFn
  cases c <;> cases d <;> cases e <;> exact ⟨rfl, _, rfl, rfl⟩

/-- In every other case, the request not being for an IRIS denomination or the
token-statistic query succeeding, the handler writes exactly one response, as its last
step. -/
theorem tokenStats_one_write_otherwise (o : TokenStatsOutcomes)
    (h : o.isIris = false ∨ o.queryTokenStats = true) :
    countWrites (QueryTokenStatsRequestHandlerFn o) = 1 := by
  obtain ⟨a, b, c, d, e, f, g, h2, i⟩ := o
  simp only at h
  unfold QueryTokenStatsRequestHandlerFn
  rcases h with h | h <;> subst h
  · cases f <;> cases g <;> cases h2 <;> cases i <;> rfl
  · cases a
    · cases f <;> cases g <;> cases h2 <;> cases i <;> rfl
    · cases c <;> cases d <;> cases e <;> rfl

/-- C24: for a request for an IRIS denomination whose token-statistic query fails and whose
decoding of the empty result fails, the handler writes two error responses, with a decoding
between them. -/
theorem C24_tokenStats_query_failure_writes_twice :
    QueryTokenStatsRequestHandlerFn
        { isIris := true, queryTokenStats := false, unmarshalTokenStats := false,
          queryPool := true, unmarshalPool := true, marshalParams := true,
          queryToken := true, unmarshalToken := true, getAccount := true }
      = [.QueryWithData .tokenStats, .WriteErrorResponse StatusInternalServerError,
         .UnmarshalJSON, .WriteErrorResponse StatusInternalServerError] ∧
    countWrites (QueryTokenStatsRequestHandlerFn
        { isIris := true, queryTokenStats := false, unmarshalTokenStats := false,
          queryPool := true, unmarshalPool := true, marshalParams := true,
          queryToken := true, unmarshalToken := true, getAccount := true }) = 2 := by
  decide

end Irishub
